import Mathlib

/-!
Shallow embedding of rocSPARSE `hybmv` (`library/src/level2/rocsparse_hybmv.cpp`)


The host-side routine `rocsparse_hybmv_template` validates its arguments and
then queues device work (kernel launches, scratch allocations and frees) on
the stream of the handle.  The embedding keeps

* pointers as `Option` (`none` is `nullptr`), a read through `nullptr` being a
  fault that ends the call (binding `*p` to a reference reads nothing);
* `rocsparse_int` as `Int` with every arithmetic result wrapped to 32 bits,
  division truncating towards zero and faulting on a zero divisor;
* the device work as a trace of `Action`s, in the order it is queued;
* the scalars and vector entries as rationals.

The enumerations, the handle and matrix records, the macro
`RETURN_IF_HIP_ERROR` and the device functions called by the kernels are
declared in headers that are not part of the translated file; each is marked
where it is introduced.
-/

namespace rocsparse

/-! ## Enumerations and records (declared in `rocsparse.h` / `handle.h`) -/

/-- Pointer mode of a handle: scalars live on the host or on the device. -/
inductive rocsparse_pointer_mode where
  | rocsparse_pointer_mode_host
  | rocsparse_pointer_mode_device
  deriving DecidableEq, Repr

/-- Operation applied to the matrix. -/
inductive rocsparse_operation where
  | rocsparse_operation_none
  | rocsparse_operation_transpose
  | rocsparse_operation_conjugate_transpose
  deriving DecidableEq, Repr

/-- Index base stored in a descriptor; `out_of_range` stands for any enum value
that is neither of the two named ones. -/
inductive rocsparse_index_base where
  | rocsparse_index_base_zero
  | rocsparse_index_base_one
  | out_of_range (raw : Int)
  deriving DecidableEq, Repr

/-- Matrix type stored in a descriptor. -/
inductive rocsparse_matrix_type where
  | rocsparse_matrix_type_general
  | rocsparse_matrix_type_symmetric
  | rocsparse_matrix_type_hermitian
  | rocsparse_matrix_type_triangular
  deriving DecidableEq, Repr

/-- Result code of a HIP runtime call. -/
inductive hipError_t where
  | hipSuccess
  | hipFailure (code : Nat)
  deriving DecidableEq, Repr

/-- Modelled from the spec: the status codes of section 6 (success,
invalid-handle, invalid-pointer, invalid-value, invalid-size, not-implemented)
and the status produced by the macro `RETURN_IF_HIP_ERROR` of `definitions.h`,
which is missing from the sources: section 7 says that a device-level failure
propagates a distinct status, here `hip_failure`, carrying the HIP code. -/
inductive rocsparse_status where
  | rocsparse_status_success
  | rocsparse_status_invalid_handle
  | rocsparse_status_not_implemented
  | rocsparse_status_invalid_pointer
  | rocsparse_status_invalid_size
  | rocsparse_status_invalid_value
  | hip_failure (e : hipError_t)
  deriving DecidableEq, Repr

/-- The two fields of `hipDeviceProp_t` that the routine reads. -/
structure hipDeviceProp_t where
  maxThreadsPerBlock : Int
  multiProcessorCount : Int
  deriving DecidableEq, Repr

/-- The fields of `_rocsparse_handle` that the routine and the trace logger
read; `log_trace` is the trace-logging bit of the layer mode of the handle,
off unless logging was requested when the handle was created. -/
structure Handle where
  pointer_mode : rocsparse_pointer_mode
  warp_size : Int
  properties : hipDeviceProp_t
  log_trace : Bool
  deriving DecidableEq, Repr

/-- The fields of `_rocsparse_mat_descr` that the routine reads. -/
structure MatDescr where
  base : rocsparse_index_base
  type : rocsparse_matrix_type
  deriving DecidableEq, Repr

/-- The fields of `_rocsparse_hyb_mat` that the routine reads. -/
structure HybMat where
  m : Int
  n : Int
  ell_nnz : Int
  ell_width : Int
  ell_col_ind : Option (List Int)
  ell_val : Option (List ℚ)
  coo_nnz : Int
  coo_row_ind : Option (List Int)
  coo_col_ind : Option (List Int)
  coo_val : Option (List ℚ)
  deriving DecidableEq

/-- Results that the HIP runtime gives to the two `hipMalloc` and the two
`hipFree` calls of one invocation. -/
structure HipRuntime where
  malloc_row : hipError_t
  malloc_val : hipError_t
  free_row : hipError_t
  free_val : hipError_t
  deriving DecidableEq, Repr

/-! ## 32-bit signed arithmetic of `rocsparse_int` -/

/-- Reduction of an integer to the 32-bit two's-complement range. -/
def wrap32 (z : Int) : Int := (z + 2 ^ 31) % 2 ^ 32 - 2 ^ 31

/-- A value that `rocsparse_int` can hold. -/
def isInt32 (z : Int) : Prop := -(2 ^ 31) ≤ z ∧ z < 2 ^ 31

instance (z : Int) : Decidable (isInt32 z) := by unfold isInt32; infer_instance

/-- `a + b` on `rocsparse_int`. -/
def add32 (a b : Int) : Int := wrap32 (a + b)

/-- `a - b` on `rocsparse_int`. -/
def sub32 (a b : Int) : Int := wrap32 (a - b)

/-- `a * b` on `rocsparse_int`. -/
def mul32 (a b : Int) : Int := wrap32 (a * b)

/-- `a / b` on `rocsparse_int`: truncating, `none` on a zero divisor. -/
def div32 (a b : Int) : Option Int :=
  if b = 0 then none else some (wrap32 (Int.tdiv a b))

/-! ## Device work and the result of a call -/

/-- One piece of device work queued by the routine, with the arguments the
source passes (array arguments are the arrays of the matrix and `x`, `y`). -/
inductive Action where
  /-- Launch of `ellmvn_kernel_host_pointer<T>` on `blocks` x `threads`. -/
  | launch_ellmvn_host (blocks threads m n ell_width : Int) (alpha beta : ℚ)
      (idx_base : rocsparse_index_base)
  /-- Call `hipMalloc(&row_block_red, sizeof(rocsparse_int) * count)` and its result. -/
  | hipMalloc_row_block_red (count : Int) (res : hipError_t)
  /-- Call `hipMalloc(&val_block_red, sizeof(T) * count)` and its result. -/
  | hipMalloc_val_block_red (count : Int) (res : hipError_t)
  /-- Launch of `coomvn_warp_host_pointer<T, BLOCKSIZE, WARPSIZE>`. -/
  | launch_coomvn_warp_host (BLOCKSIZE WARPSIZE blocks threads nnz loops : Int)
      (alpha : ℚ) (idx_base : rocsparse_index_base)
  /-- Launch of `coomvn_general_block_reduce<T, BLOCKSIZE>`. -/
  | launch_coomvn_block_reduce (BLOCKSIZE blocks threads nwarps : Int)
  /-- Call `hipFree(row_block_red)` and its result. -/
  | hipFree_row_block_red (res : hipError_t)
  /-- Call `hipFree(val_block_red)` and its result. -/
  | hipFree_val_block_red (res : hipError_t)
  deriving DecidableEq

/-- Undefined behaviour that ends a call without a status. -/
inductive Fault where
  | null_dereference
  | division_by_zero
  deriving DecidableEq, Repr

/-- How a call ends: with a status, or in a fault. -/
inductive Outcome where
  | returned (s : rocsparse_status)
  | fault (f : Fault)
  deriving DecidableEq, Repr

/-- Result of a call: how it ended and the device work queued until then. -/
structure Result where
  outcome : Outcome
  trace : List Action
  deriving DecidableEq

/-- The arguments of a call together with the behaviour of the runtime. -/
structure Call where
  rt : HipRuntime
  handle : Option Handle
  trans : rocsparse_operation
  alpha : Option ℚ
  descr : Option MatDescr
  hyb : Option HybMat
  x : Option (List ℚ)
  beta : Option ℚ
  y : Option (List ℚ)
  deriving DecidableEq

/-! ## The routine -/

open rocsparse_pointer_mode rocsparse_operation rocsparse_index_base
  rocsparse_matrix_type hipError_t rocsparse_status Action Fault Outcome

/-- Block size of the ELL kernel (`#define ELLMVN_DIM 512`). -/
def ELLMVN_DIM : Int := 512

/-- Block size of the COO kernels (`#define COOMVN_DIM 128`). -/
def COOMVN_DIM : Int := 128

/-- Grid of the ELL kernel: `(hyb->m - 1) / ELLMVN_DIM + 1` blocks. -/
def ellmvn_blocks (m : Int) : Int :=
  add32 (wrap32 (Int.tdiv (sub32 m 1) ELLMVN_DIM)) 1

/-- The sizes computed for the COO part. -/
structure CooGrid where
  maxblocks : Int
  minblocks : Int
  nblocks : Int
  nwarps : Int
  nloops : Int
  deriving DecidableEq, Repr

/-- The COO grid computation of the source, in its order of evaluation:
`maxblocks`, `minblocks`, `nblocks`, `nwarps = nblocks * (COOMVN_DIM / warp_size)`,
`nloops = (coo_nnz / warp_size + 1) / nwarps + 1`; `none` when a divisor is zero. -/
def coomvn_grid (h : Handle) (coo_nnz : Int) : Option CooGrid :=
  let maxthreads := h.properties.maxThreadsPerBlock
  let nprocs := h.properties.multiProcessorCount
  let maxblocks := add32 (wrap32 (Int.tdiv (sub32 (mul32 nprocs maxthreads) 1) COOMVN_DIM)) 1
  let minblocks := add32 (wrap32 (Int.tdiv (sub32 coo_nnz 1) COOMVN_DIM)) 1
  let nblocks := if maxblocks < minblocks then maxblocks else minblocks
  match div32 COOMVN_DIM h.warp_size with
  | none => none
  | some wpb =>
    let nwarps := mul32 nblocks wpb
    match div32 coo_nnz h.warp_size with
    | none => none
    | some q =>
      match div32 (add32 q 1) nwarps with
      | none => none
      | some l => some ⟨maxblocks, minblocks, nblocks, nwarps, add32 l 1⟩

/-- The COO part of the host-pointer branch (source lines 250-310), entered with
the device work `pre` already queued. -/
def hybmv_coo_part (rt : HipRuntime) (h : Handle) (d : MatDescr) (A : HybMat)
    (a : ℚ) (pre : List Action) : Result :=
  match coomvn_grid h A.coo_nnz with
  | none => ⟨fault division_by_zero, pre⟩
  | some g =>
    let t1 := pre ++ [hipMalloc_row_block_red g.nwarps rt.malloc_row]
    if rt.malloc_row ≠ hipSuccess then ⟨returned (hip_failure rt.malloc_row), t1⟩
    else
      let t2 := t1 ++ [hipMalloc_val_block_red g.nwarps rt.malloc_val]
      if rt.malloc_val ≠ hipSuccess then ⟨returned (hip_failure rt.malloc_val), t2⟩
      else
        let t3 := t2 ++
          [launch_coomvn_warp_host COOMVN_DIM 64 g.nblocks COOMVN_DIM A.coo_nnz g.nloops a d.base,
           launch_coomvn_block_reduce COOMVN_DIM 1 COOMVN_DIM g.nwarps,
           hipFree_row_block_red rt.free_row]
        if rt.free_row ≠ hipSuccess then ⟨returned (hip_failure rt.free_row), t3⟩
        else
          let t4 := t3 ++ [hipFree_val_block_red rt.free_val]
          if rt.free_val ≠ hipSuccess then ⟨returned (hip_failure rt.free_val), t4⟩
          else ⟨returned rocsparse_status_success, t4⟩

/-- The kernel selection of the routine (source lines 212-319), entered after
validation and the quick return. -/
def hybmv_dispatch (rt : HipRuntime) (h : Handle) (trans : rocsparse_operation)
    (alpha beta : Option ℚ) (d : MatDescr) (A : HybMat) : Result :=
  if trans = rocsparse_operation_none then
    if h.pointer_mode = rocsparse_pointer_mode_device then
      -- the device-pointer branch of the source is empty
      ⟨returned rocsparse_status_success, []⟩
    else
      match alpha, beta with
      | some a, some b =>
        if a = 0 ∧ b = 1 then ⟨returned rocsparse_status_success, []⟩
        else
          let ell : List Action :=
            if 0 < A.ell_nnz then
              [launch_ellmvn_host (ellmvn_blocks A.m) ELLMVN_DIM A.m A.n A.ell_width a b d.base]
            else []
          if 0 < A.coo_nnz then hybmv_coo_part rt h d A a ell
          else ⟨returned rocsparse_status_success, ell⟩
      | _, _ => ⟨fault null_dereference, []⟩
  else ⟨returned rocsparse_status_not_implemented, []⟩

/-- The `log_trace` call (source lines 95-118): in host pointer mode the call
is passed `*alpha` and `*beta`, in device pointer mode the two addresses. The
arguments are bound by reference, and the logger (declared in a header that is
not among the sources) reads them only when trace logging is on for the
handle; with logging off nothing is read. `false` when a null pointer is
read. -/
def log_trace_reads (h : Handle) (alpha beta : Option ℚ) : Bool :=
  if h.pointer_mode = rocsparse_pointer_mode_host ∧ h.log_trace = true then
    alpha.isSome && beta.isSome
  else true

/-- The routine `rocsparse_hybmv_template` (source lines 71-320). -/
def rocsparse_hybmv_template (c : Call) : Result :=
  match c.handle with
  | none => ⟨returned rocsparse_status_invalid_handle, []⟩
  | some h =>
  match c.descr with
  | none => ⟨returned rocsparse_status_invalid_pointer, []⟩
  | some d =>
  match c.hyb with
  | none => ⟨returned rocsparse_status_invalid_pointer, []⟩
  | some A =>
  if log_trace_reads h c.alpha c.beta = false then ⟨fault null_dereference, []⟩
  -- Check index base
  else if d.base ≠ rocsparse_index_base_zero ∧ d.base ≠ rocsparse_index_base_one then
    ⟨returned rocsparse_status_invalid_value, []⟩
  -- Check matrix type
  else if d.type ≠ rocsparse_matrix_type_general then
    ⟨returned rocsparse_status_not_implemented, []⟩
  -- Check sizes
  else if A.m < 0 then ⟨returned rocsparse_status_invalid_size, []⟩
  else if A.n < 0 then ⟨returned rocsparse_status_invalid_size, []⟩
  else if add32 A.ell_nnz A.coo_nnz < 0 then ⟨returned rocsparse_status_invalid_size, []⟩
  -- Check ELL-HYB structure
  else if 0 < A.ell_nnz ∧ A.ell_width < 0 then ⟨returned rocsparse_status_invalid_size, []⟩
  else if 0 < A.ell_nnz ∧ A.ell_col_ind = none then
    ⟨returned rocsparse_status_invalid_pointer, []⟩
  else if 0 < A.ell_nnz ∧ A.ell_val = none then
    ⟨returned rocsparse_status_invalid_pointer, []⟩
  -- Check COO-HYB structure
  else if 0 < A.coo_nnz ∧ A.coo_row_ind = none then
    ⟨returned rocsparse_status_invalid_pointer, []⟩
  else if 0 < A.coo_nnz ∧ A.coo_col_ind = none then
    ⟨returned rocsparse_status_invalid_pointer, []⟩
  else if 0 < A.coo_nnz ∧ A.coo_val = none then
    ⟨returned rocsparse_status_invalid_pointer, []⟩
  -- Check pointer arguments
  else if c.x = none then ⟨returned rocsparse_status_invalid_pointer, []⟩
  else if c.y = none then ⟨returned rocsparse_status_invalid_pointer, []⟩
  else if c.alpha = none then ⟨returned rocsparse_status_invalid_pointer, []⟩
  else if c.beta = none then ⟨returned rocsparse_status_invalid_pointer, []⟩
  -- Quick return if possible
  else if A.m = 0 ∨ A.n = 0 ∨ add32 A.ell_nnz A.coo_nnz = 0 then
    ⟨returned rocsparse_status_success, []⟩
  else hybmv_dispatch c.rt h c.trans c.alpha c.beta d A

/-! ## Effect of the queued device work on `y`

The device functions `ellmvn_device`, `coomvn_general_warp_reduce` and
`coomvn_general_block_reduce` live in `ellmv_device.h` and `coomv_device.h`,
which are not among the sources.  They are modelled from sections 4.3-4.5 of
the specification, over exact rational arithmetic. -/

/-- Value subtracted from a stored index for a given index base. -/
def rocsparse_index_base.toInt : rocsparse_index_base → Int
  | rocsparse_index_base_zero => 0
  | rocsparse_index_base_one => 1
  | out_of_range raw => raw

/-- Device memory touched by the kernels: `y` and the two scratch buffers. -/
structure DeviceMem where
  y : List ℚ
  row_block_red : List Int
  val_block_red : List ℚ
  deriving DecidableEq

/-- Atomic add of `v` to `y[r]`; an index outside `y` adds nothing. -/
def atomic_add (y : List ℚ) (r : Int) (v : ℚ) : List ℚ :=
  y.enum.map fun p => if (p.1 : Int) = r then p.2 + v else p.2

/-- Modelled from the spec: the accumulator of ELL row `i` (section 4.3): over
the `ell_width` slots of the row, a slot whose column minus the index base lies
outside `[0,n)` is padding and adds nothing, any other slot adds `v * x[j]`. -/
def ellmvn_row_sum (n ell_width base : Int) (ell_col_ind : List Int) (ell_val x : List ℚ)
    (i : Nat) : ℚ :=
  ((List.range ell_width.toNat).map fun p =>
    let idx := i * ell_width.toNat + p
    let j := ell_col_ind.getD idx 0 - base
    if 0 ≤ j ∧ j < n then ell_val.getD idx 0 * x.getD j.toNat 0 else 0).sum

/-- Modelled from the spec: `ellmvn_device` of `ellmv_device.h` (section 4.3):
for every row `i` in `[0,m)`, `y[i] = alpha * accumulator + beta * y[i]`. -/
def ellmvn_device (m n ell_width : Int) (alpha : ℚ) (ell_col_ind : List Int)
    (ell_val x : List ℚ) (beta : ℚ) (y : List ℚ) (base : Int) : List ℚ :=
  y.enum.map fun p =>
    if (p.1 : Int) < m then
      alpha * ellmvn_row_sum n ell_width base ell_col_ind ell_val x p.1 + beta * p.2
    else p.2

/-- The `k`-th COO triple as (row, alpha-scaled product), indices made zero-based. -/
def coo_entry (alpha : ℚ) (base : Int) (row col : List Int) (val x : List ℚ) (k : Nat) :
    Int × ℚ :=
  (row.getD k 0 - base, alpha * (val.getD k 0 * x.getD (col.getD k 0 - base).toNat 0))

/-- The contiguous slice of COO entries handled by warp `w`: `loops` passes of
`WARPSIZE` entries each, cut at `nnz`. -/
def coo_slice (WARPSIZE loops nnz : Int) (w : Nat) : List Nat :=
  (List.range (loops * WARPSIZE).toNat).filterMap fun t =>
    let k := w * (loops * WARPSIZE).toNat + t
    if (k : Int) < nnz then some k else none

/-- Modelled from the spec: one warp of `coomvn_general_warp_reduce` (section
4.4): the trailing run of entries of the slice that share the last row is kept
as the carry of the warp, every other entry is added to `y` directly. Returns
the new `y` and the carry; an empty slice carries row `-1`. -/
def coomvn_warp (es : List (Int × ℚ)) (y : List ℚ) : List ℚ × (Int × ℚ) :=
  match es.reverse with
  | [] => (y, (-1, 0))
  | last :: before =>
    let run := before.takeWhile fun e => e.1 = last.1
    let flushed := before.dropWhile fun e => e.1 = last.1
    (flushed.reverse.foldl (fun acc e => atomic_add acc e.1 e.2) y,
     (last.1, last.2 + (run.map Prod.snd).sum))

/-- Modelled from the spec: `coomvn_general_warp_reduce<T, BLOCKSIZE, WARPSIZE>`
of `coomv_device.h` (section 4.4) on a grid of `blocks` blocks of `threads`
threads: warp `w` of the `blocks * (threads / WARPSIZE)` warps handles its slice
and writes its carry to slot `w` of the scratch buffers. -/
def coomvn_general_warp_reduce (WARPSIZE blocks threads nnz loops : Int) (alpha : ℚ)
    (row col : List Int) (val x : List ℚ) (base : Int) (mem : DeviceMem) : DeviceMem :=
  (List.range (blocks * (Int.tdiv threads WARPSIZE)).toNat).foldl (fun st w =>
    let es := (coo_slice WARPSIZE loops nnz w).map (coo_entry alpha base row col val x)
    let r := coomvn_warp es st.y
    { y := r.1
      row_block_red := st.row_block_red.set w r.2.1
      val_block_red := st.val_block_red.set w r.2.2 }) mem

/-- Modelled from the spec: `coomvn_general_block_reduce<T, BLOCKSIZE>` of
`coomv_device.h` (section 4.5): each of the `nwarps` carried partials is added
to its row of `y`. -/
def coomvn_general_block_reduce (nwarps : Int) (mem : DeviceMem) : DeviceMem :=
  { mem with
    y := (List.range nwarps.toNat).foldl (fun acc k =>
      atomic_add acc (mem.row_block_red.getD k (-1)) (mem.val_block_red.getD k 0)) mem.y }

/-- Effect of one queued action on device memory, for the arrays of call `c`. -/
def device_step (c : Call) (mem : DeviceMem) : Action → DeviceMem
  | launch_ellmvn_host _ _ m n ell_width alpha beta idx_base =>
    { mem with
      y := ellmvn_device m n ell_width alpha
        (((c.hyb.bind fun A => A.ell_col_ind).getD []))
        (((c.hyb.bind fun A => A.ell_val).getD []))
        (c.x.getD []) beta mem.y idx_base.toInt }
  | hipMalloc_row_block_red count res =>
    if res = hipSuccess then { mem with row_block_red := List.replicate count.toNat (-1) }
    else mem
  | hipMalloc_val_block_red count res =>
    if res = hipSuccess then { mem with val_block_red := List.replicate count.toNat 0 }
    else mem
  | launch_coomvn_warp_host _ WARPSIZE blocks threads nnz loops alpha idx_base =>
    coomvn_general_warp_reduce WARPSIZE blocks threads nnz loops alpha
      (((c.hyb.bind fun A => A.coo_row_ind).getD []))
      (((c.hyb.bind fun A => A.coo_col_ind).getD []))
      (((c.hyb.bind fun A => A.coo_val).getD []))
      (c.x.getD []) idx_base.toInt mem
  | launch_coomvn_block_reduce _ _ _ nwarps => coomvn_general_block_reduce nwarps mem
  | hipFree_row_block_red _ => { mem with row_block_red := [] }
  | hipFree_val_block_red _ => { mem with val_block_red := [] }

/-- Device memory after the stream has drained the queued work `t`. -/
def device_run (c : Call) (t : List Action) (mem : DeviceMem) : DeviceMem :=
  t.foldl (device_step c) mem

/-- The vector `y` after the call and its queued device work. -/
def y_after (c : Call) : Option (List ℚ) :=
  c.y.map fun y => (device_run c (rocsparse_hybmv_template c).trace ⟨y, [], []⟩).y

/-- COO contribution to row `i`: the sum of `v * x[col]` over the first
`coo_nnz` triples whose row, made zero-based, is `i`. -/
def coo_row_sum (coo_nnz base : Int) (row col : List Int) (val x : List ℚ) (i : Nat) : ℚ :=
  ((List.range coo_nnz.toNat).map fun k =>
    if row.getD k 0 - base = (i : Int) then
      val.getD k 0 * x.getD (col.getD k 0 - base).toNat 0
    else 0).sum

/-- The result required of the operation (section 8): for each row `i` in
`[0,m)`, `alpha * (ELL contribution + COO contribution) + beta * y[i]`. -/
def hybmv_reference (A : HybMat) (base : Int) (alpha beta : ℚ) (x y : List ℚ) : List ℚ :=
  y.enum.map fun p =>
    if (p.1 : Int) < A.m then
      alpha * (ellmvn_row_sum A.n A.ell_width base (A.ell_col_ind.getD []) (A.ell_val.getD []) x p.1
        + coo_row_sum A.coo_nnz base (A.coo_row_ind.getD []) (A.coo_col_ind.getD [])
            (A.coo_val.getD []) x p.1)
      + beta * p.2
    else p.2

/-! ## Vocabulary of the properties -/

/-- The index base is one of the two legal ones. -/
def legal_index_base (b : rocsparse_index_base) : Prop :=
  b = rocsparse_index_base_zero ∨ b = rocsparse_index_base_one

/-- No size of the matrix is invalid, as the routine checks it: `m`, `n` and
the 32-bit sum `ell_nnz + coo_nnz` are non-negative and a non-empty ELL part
has a non-negative width. -/
def sizes_valid (A : HybMat) : Prop :=
  0 ≤ A.m ∧ 0 ≤ A.n ∧ 0 ≤ add32 A.ell_nnz A.coo_nnz ∧ (0 < A.ell_nnz → 0 ≤ A.ell_width)

/-- The arrays of every non-empty sub-format are present. -/
def arrays_present (A : HybMat) : Prop :=
  (0 < A.ell_nnz → A.ell_col_ind ≠ none ∧ A.ell_val ≠ none) ∧
  (0 < A.coo_nnz → A.coo_row_ind ≠ none ∧ A.coo_col_ind ≠ none ∧ A.coo_val ≠ none)

/-- Degenerate sizes, as the quick return tests them. -/
def degenerate (A : HybMat) : Prop :=
  A.m = 0 ∨ A.n = 0 ∨ add32 A.ell_nnz A.coo_nnz = 0

instance (b : rocsparse_index_base) : Decidable (legal_index_base b) := by
  unfold legal_index_base; infer_instance

instance (A : HybMat) : Decidable (sizes_valid A) := by
  unfold sizes_valid; infer_instance

instance (A : HybMat) : Decidable (arrays_present A) := by
  unfold arrays_present; infer_instance

instance (A : HybMat) : Decidable (degenerate A) := by
  unfold degenerate; infer_instance

/-- The action is a kernel launch (device work that writes `y`). -/
def Action.is_launch : Action → Bool
  | launch_ellmvn_host .. => true
  | launch_coomvn_warp_host .. => true
  | launch_coomvn_block_reduce .. => true
  | _ => false

/-- The action is the launch of the ELL kernel. -/
def Action.is_ell_launch : Action → Bool
  | launch_ellmvn_host .. => true
  | _ => false

/-- The action is the launch of the COO warp-reduce kernel. -/
def Action.is_coo_warp_launch : Action → Bool
  | launch_coomvn_warp_host .. => true
  | _ => false

/-- The action is the launch of the block-reduce kernel. -/
def Action.is_block_reduce_launch : Action → Bool
  | launch_coomvn_block_reduce .. => true
  | _ => false

/-- The action is a kernel launch that is passed `beta`. -/
def Action.receives_beta : Action → Bool
  | launch_ellmvn_host .. => true
  | _ => false

/-- The trace holds no kernel launch. -/
def issues_no_launch (t : List Action) : Prop := t.all (fun a => !a.is_launch) = true

/-- The trace holds every launch the operation requires: the ELL launch if
`ell_nnz > 0`, and both COO launches if `coo_nnz > 0`. -/
def issues_every_launch (A : HybMat) (t : List Action) : Prop :=
  (0 < A.ell_nnz → t.any Action.is_ell_launch = true) ∧
  (0 < A.coo_nnz →
    t.any Action.is_coo_warp_launch = true ∧ t.any Action.is_block_reduce_launch = true)

instance (t : List Action) : Decidable (issues_no_launch t) := by
  unfold issues_no_launch; infer_instance

instance (A : HybMat) (t : List Action) : Decidable (issues_every_launch A t) := by
  unfold issues_every_launch; infer_instance

/-- All-or-nothing: the call queues no launch, or every launch required by its
matrix. -/
def no_partial_success (c : Call) : Prop :=
  issues_no_launch (rocsparse_hybmv_template c).trace ∨
  match c.hyb with
  | some A => issues_every_launch A (rocsparse_hybmv_template c).trace
  | none => False

instance (c : Call) : Decidable (no_partial_success c) := by
  unfold no_partial_success
  cases c.hyb <;> infer_instance

/-- An outcome that can follow queued device work: the arithmetic fault of the
grid computation, success, or a failure reported by the HIP runtime. -/
def Outcome.after_device_work (o : Outcome) : Prop :=
  o = fault division_by_zero ∨ o = returned rocsparse_status_success ∨
    ∃ e, o = returned (hip_failure e)

/-- The statuses of a failed validation. -/
def rocsparse_status.is_validation_error : rocsparse_status → Bool
  | rocsparse_status_invalid_handle => true
  | rocsparse_status_invalid_pointer => true
  | rocsparse_status_invalid_value => true
  | rocsparse_status_invalid_size => true
  | rocsparse_status_not_implemented => true
  | _ => false

/-! ## Concrete inputs -/

/-- A runtime on which every allocation and free succeeds. -/
def runtime_ok : HipRuntime := ⟨hipSuccess, hipSuccess, hipSuccess, hipSuccess⟩

/-- A runtime whose first scratch allocation fails. -/
def runtime_no_memory : HipRuntime := ⟨hipFailure 2, hipSuccess, hipSuccess, hipSuccess⟩

/-- A handle in host pointer mode (wavefront 64, 64 processors of 1024 threads),
trace logging off. -/
def handle_host : Handle := ⟨rocsparse_pointer_mode_host, 64, ⟨1024, 64⟩, false⟩

/-- The host-mode handle with trace logging switched on. -/
def handle_host_logging : Handle := ⟨rocsparse_pointer_mode_host, 64, ⟨1024, 64⟩, true⟩

/-- The same handle in device pointer mode. -/
def handle_device : Handle := ⟨rocsparse_pointer_mode_device, 64, ⟨1024, 64⟩, false⟩

/-- A general descriptor with index base zero. -/
def descr_general : MatDescr := ⟨rocsparse_index_base_zero, rocsparse_matrix_type_general⟩

/-- The example of section 8: `m = n = 3`, ELL width 1, values `[2, pad, 3]` at
columns `[0, out of range, 2]`, no COO part. -/
def hyb_example : HybMat :=
  ⟨3, 3, 3, 1, some [0, -1, 2], some [2, 0, 3], 0, none, none, none⟩

/-- A 3x3 matrix with an empty ELL part and four COO entries. -/
def hyb_coo_only : HybMat :=
  ⟨3, 3, 0, 0, none, none, 4, some [0, 2, 2, 1], some [0, 1, 2, 1], some [1, 2, 3, 4]⟩

/-- A 3x3 matrix with three ELL entries and one COO entry. -/
def hyb_both : HybMat :=
  ⟨3, 3, 3, 1, some [0, 1, 2], some [2, 5, 3], 1, some [1], some [0], some [7]⟩

/-- A matrix with no rows that still declares COO entries. -/
def hyb_no_rows : HybMat :=
  ⟨0, 3, 0, 0, none, none, 2, some [0, 0], some [0, 1], some [1, 1]⟩

/-- A 3x3 matrix that declares no nonzero at all. -/
def hyb_no_entries : HybMat := ⟨3, 3, 0, 0, none, none, 0, none, none, none⟩

/-- A matrix whose two nonzero counts are `2^30` each; only the counts matter. -/
def hyb_large_counts : HybMat :=
  ⟨3, 3, 1073741824, 1, some [], some [], 1073741824, some [], some [], some []⟩

/-- A matrix with a negative row count. -/
def hyb_negative_rows : HybMat := ⟨-1, 3, 0, 0, none, none, 0, none, none, none⟩

/-- The call of section 8 on handle `h`: `x = [1,1,1]`, `alpha = 1`, `beta = 0`,
with `y = [5,5,5]` before the call. -/
def call_example (h : Handle) : Call :=
  ⟨runtime_ok, some h, rocsparse_operation_none, some 1, some descr_general, some hyb_example,
    some [1, 1, 1], some 0, some [5, 5, 5]⟩

/-- The call of section 8 on handle `h`, with an index base that is neither
zero nor one and with `alpha` absent. -/
def call_bad_base_null_alpha (h : Handle) : Call :=
  ⟨runtime_ok, some h, rocsparse_operation_none, none,
    some ⟨out_of_range 2, rocsparse_matrix_type_general⟩, some hyb_example,
    some [1, 1, 1], some 0, some [5, 5, 5]⟩

/-- A call on matrix `A` with `x = [1,1,1]`, `y = [5,5,5]` and the given
runtime, handle and scalars. -/
def call_on (rt : HipRuntime) (h : Handle) (A : HybMat) (alpha beta : Option ℚ) : Call :=
  ⟨rt, some h, rocsparse_operation_none, alpha, some descr_general, some A,
    some [1, 1, 1], beta, some [5, 5, 5]⟩

/-! ## Vocabulary of the grid and scratch-buffer properties -/

/-- The value `maxblocks = (nprocs * maxthreads - 1) / COOMVN_DIM + 1` of the
source (line 256). -/
def coomvn_maxblocks (h : Handle) : Int :=
  add32 (wrap32 (Int.tdiv
    (sub32 (mul32 h.properties.multiProcessorCount h.properties.maxThreadsPerBlock) 1)
    COOMVN_DIM)) 1

/-- The value `minblocks = (hyb->coo_nnz - 1) / COOMVN_DIM + 1` of the source
(line 257). -/
def coomvn_minblocks (coo_nnz : Int) : Int :=
  add32 (wrap32 (Int.tdiv (sub32 coo_nnz 1) COOMVN_DIM)) 1

/-- The value `nblocks = maxblocks < minblocks ? maxblocks : minblocks` of the
source (line 259). -/
def coomvn_nblocks (h : Handle) (coo_nnz : Int) : Int :=
  if coomvn_maxblocks h < coomvn_minblocks coo_nnz then coomvn_maxblocks h
  else coomvn_minblocks coo_nnz

/-- Number of warps a COO warp-reduce launch runs with: `blocks` blocks of
`threads` threads, grouped by the warp size the kernel is compiled for. -/
def Action.warps_launched : Action → Option Int
  | launch_coomvn_warp_host _ WARPSIZE blocks threads _ _ _ _ =>
    some (blocks * Int.tdiv threads WARPSIZE)
  | _ => none

/-- Number of elements of a scratch allocation, or of carried partials the
block-reduce kernel is told to read. -/
def Action.scratch_slots : Action → Option Int
  | hipMalloc_row_block_red count _ => some count
  | hipMalloc_val_block_red count _ => some count
  | launch_coomvn_block_reduce _ _ _ nwarps => some nwarps
  | _ => none

/-- The action is a successful allocation of `row_block_red`. -/
def Action.allocates_row : Action → Bool
  | hipMalloc_row_block_red _ hipSuccess => true
  | _ => false

/-- The action is a successful allocation of `val_block_red`. -/
def Action.allocates_val : Action → Bool
  | hipMalloc_val_block_red _ hipSuccess => true
  | _ => false

/-- The action is a call of `hipFree` on `row_block_red`. -/
def Action.frees_row : Action → Bool
  | hipFree_row_block_red _ => true
  | _ => false

/-- The action is a call of `hipFree` on `val_block_red`. -/
def Action.frees_val : Action → Bool
  | hipFree_val_block_red _ => true
  | _ => false

/-- Every scratch buffer that the trace allocates is passed to `hipFree` in it. -/
def scratch_released (t : List Action) : Prop :=
  (t.any Action.allocates_row = true → t.any Action.frees_row = true) ∧
  (t.any Action.allocates_val = true → t.any Action.frees_val = true)

instance (t : List Action) : Decidable (scratch_released t) := by
  unfold scratch_released; infer_instance

/-- The device work of a host-mode call in the order of the source: the ELL
launch if `ell_nnz > 0`, then, if `coo_nnz > 0`, the two allocations, the
warp-reduce launch, the block-reduce launch and the two frees, for grid `g`. -/
def host_mode_trace (rt : HipRuntime) (d : MatDescr) (A : HybMat) (a b : ℚ) (g : CooGrid) :
    List Action :=
  (if 0 < A.ell_nnz then
    [launch_ellmvn_host (ellmvn_blocks A.m) ELLMVN_DIM A.m A.n A.ell_width a b d.base]
  else []) ++
  (if 0 < A.coo_nnz then
    [hipMalloc_row_block_red g.nwarps rt.malloc_row,
     hipMalloc_val_block_red g.nwarps rt.malloc_val,
     launch_coomvn_warp_host COOMVN_DIM 64 g.nblocks COOMVN_DIM A.coo_nnz g.nloops a d.base,
     launch_coomvn_block_reduce COOMVN_DIM 1 COOMVN_DIM g.nwarps,
     hipFree_row_block_red rt.free_row,
     hipFree_val_block_red rt.free_val]
  else [])

/-- A runtime whose second scratch allocation fails. -/
def runtime_second_alloc_fails : HipRuntime := ⟨hipSuccess, hipFailure 2, hipSuccess, hipSuccess⟩

/-- A runtime whose first `hipFree` reports an error. -/
def runtime_first_free_fails : HipRuntime := ⟨hipSuccess, hipSuccess, hipFailure 1, hipSuccess⟩

/-- A host-mode handle of a device with warps of 32 lanes. -/
def handle_host_warp32 : Handle := ⟨rocsparse_pointer_mode_host, 32, ⟨1024, 64⟩, false⟩

/-- A host-mode handle whose warp size, 256, exceeds the COO block size. -/
def handle_host_warp256 : Handle := ⟨rocsparse_pointer_mode_host, 256, ⟨1024, 64⟩, false⟩

/-- A host-mode handle with warp size 1. -/
def handle_host_warp1 : Handle := ⟨rocsparse_pointer_mode_host, 1, ⟨1024, 64⟩, false⟩

/-- The largest count a `rocsparse_int` holds, `2^31 - 1`. -/
def rocsparse_int_max : Int := 2147483647

/-! ## Shape of a call: lemmas shared by the claims -/

/-- Case principle for the routine: a property holds of every call once it
holds of an early return with an empty trace, of the fault in the logging
arguments, and of the kernel selection entered with validated arguments. -/
theorem template_cases (P : Call → Result → Prop)
    (early : ∀ c s, P c ⟨returned s, []⟩)
    (flt : ∀ c, P c ⟨fault null_dereference, []⟩)
    (disp : ∀ rt h trans a b d A x y,
      legal_index_base d.base → d.type = rocsparse_matrix_type_general →
      sizes_valid A → arrays_present A → ¬ degenerate A →
      P ⟨rt, some h, trans, some a, some d, some A, some x, some b, some y⟩
        (hybmv_dispatch rt h trans (some a) (some b) d A))
    (c : Call) : P c (rocsparse_hybmv_template c) := by
  obtain ⟨rt, handle, trans, alpha, descr, hyb, x, beta, y⟩ := c
  rcases handle with _ | h
  · exact early _ _
  rcases descr with _ | d
  · exact early _ _
  rcases hyb with _ | A
  · exact early _ _
  unfold rocsparse_hybmv_template
  dsimp only
  by_cases h1 : log_trace_reads h alpha beta = false
  · rw [if_pos h1]; exact flt _
  rw [if_neg h1]
  by_cases c1 : d.base ≠ rocsparse_index_base_zero ∧ d.base ≠ rocsparse_index_base_one
  · rw [if_pos c1]; exact early _ _
  rw [if_neg c1]
  by_cases c2 : d.type ≠ rocsparse_matrix_type_general
  · rw [if_pos c2]; exact early _ _
  rw [if_neg c2]
  by_cases c3 : A.m < 0
  · rw [if_pos c3]; exact early _ _
  rw [if_neg c3]
  by_cases c4 : A.n < 0
  · rw [if_pos c4]; exact early _ _
  rw [if_neg c4]
  by_cases c5 : add32 A.ell_nnz A.coo_nnz < 0
  · rw [if_pos c5]; exact early _ _
  rw [if_neg c5]
  by_cases c6 : 0 < A.ell_nnz ∧ A.ell_width < 0
  · rw [if_pos c6]; exact early _ _
  rw [if_neg c6]
  by_cases c7 : 0 < A.ell_nnz ∧ A.ell_col_ind = none
  · rw [if_pos c7]; exact early _ _
  rw [if_neg c7]
  by_cases c8 : 0 < A.ell_nnz ∧ A.ell_val = none
  · rw [if_pos c8]; exact early _ _
  rw [if_neg c8]
  by_cases c9 : 0 < A.coo_nnz ∧ A.coo_row_ind = none
  · rw [if_pos c9]; exact early _ _
  rw [if_neg c9]
  by_cases c10 : 0 < A.coo_nnz ∧ A.coo_col_ind = none
  · rw [if_pos c10]; exact early _ _
  rw [if_neg c10]
  by_cases c11 : 0 < A.coo_nnz ∧ A.coo_val = none
  · rw [if_pos c11]; exact early _ _
  rw [if_neg c11]
  by_cases c12 : x = none
  · rw [if_pos c12]; exact early _ _
  rw [if_neg c12]
  by_cases c13 : y = none
  · rw [if_pos c13]; exact early _ _
  rw [if_neg c13]
  by_cases c14 : alpha = none
  · rw [if_pos c14]; exact early _ _
  rw [if_neg c14]
  by_cases c15 : beta = none
  · rw [if_pos c15]; exact early _ _
  rw [if_neg c15]
  by_cases c16 : A.m = 0 ∨ A.n = 0 ∨ add32 A.ell_nnz A.coo_nnz = 0
  · rw [if_pos c16]; exact early _ _
  rw [if_neg c16]
  rcases alpha with _ | a
  · exact absurd rfl c14
  rcases beta with _ | b
  · exact absurd rfl c15
  rcases x with _ | x
  · exact absurd rfl c12
  rcases y with _ | y
  · exact absurd rfl c13
  refine disp rt h trans a b d A x y ?_ ?_ ?_ ?_ c16
  · by_cases hz : d.base = rocsparse_index_base_zero
    · exact Or.inl hz
    · by_cases ho : d.base = rocsparse_index_base_one
      · exact Or.inr ho
      · exact absurd ⟨hz, ho⟩ c1
  · exact not_not.mp c2
  · exact ⟨not_lt.mp c3, not_lt.mp c4, not_lt.mp c5, fun hp => not_lt.mp fun hw => c6 ⟨hp, hw⟩⟩
  · exact ⟨fun hp => ⟨fun e => c7 ⟨hp, e⟩, fun e => c8 ⟨hp, e⟩⟩,
      fun hp => ⟨fun e => c9 ⟨hp, e⟩, fun e => c10 ⟨hp, e⟩, fun e => c11 ⟨hp, e⟩⟩⟩

/-- With every pointer present and the validation conditions met, the routine
is the quick return followed by the kernel selection. -/
theorem template_of_valid (rt : HipRuntime) (h : Handle) (trans : rocsparse_operation)
    (a b : ℚ) (d : MatDescr) (A : HybMat) (x y : List ℚ)
    (hb : legal_index_base d.base) (ht : d.type = rocsparse_matrix_type_general)
    (hs : sizes_valid A) (hp : arrays_present A) :
    rocsparse_hybmv_template ⟨rt, some h, trans, some a, some d, some A, some x, some b, some y⟩
      = if degenerate A then ⟨returned rocsparse_status_success, []⟩
        else hybmv_dispatch rt h trans (some a) (some b) d A := by
  obtain ⟨hm, hn, hsum, hw⟩ := hs
  obtain ⟨hell, hcoo⟩ := hp
  have r1 : log_trace_reads h (some a) (some b) = true := by
    unfold log_trace_reads; split <;> rfl
  have c1 : ¬ (d.base ≠ rocsparse_index_base_zero ∧ d.base ≠ rocsparse_index_base_one) :=
    fun hc => hb.elim hc.1 hc.2
  have c6 : ¬ (0 < A.ell_nnz ∧ A.ell_width < 0) := fun hc => absurd hc.2 (not_lt.mpr (hw hc.1))
  have c7 : ¬ (0 < A.ell_nnz ∧ A.ell_col_ind = none) := fun hc => (hell hc.1).1 hc.2
  have c8 : ¬ (0 < A.ell_nnz ∧ A.ell_val = none) := fun hc => (hell hc.1).2 hc.2
  have c9 : ¬ (0 < A.coo_nnz ∧ A.coo_row_ind = none) := fun hc => (hcoo hc.1).1 hc.2
  have c10 : ¬ (0 < A.coo_nnz ∧ A.coo_col_ind = none) := fun hc => (hcoo hc.1).2.1 hc.2
  have c11 : ¬ (0 < A.coo_nnz ∧ A.coo_val = none) := fun hc => (hcoo hc.1).2.2 hc.2
  unfold rocsparse_hybmv_template degenerate
  dsimp only
  rw [if_neg (by rw [r1]; exact Bool.noConfusion), if_neg c1, if_neg (not_not.mpr ht),
    if_neg (not_lt.mpr hm), if_neg (not_lt.mpr hn), if_neg (not_lt.mpr hsum), if_neg c6,
    if_neg c7, if_neg c8, if_neg c9, if_neg c10, if_neg c11,
    if_neg (Option.some_ne_none x), if_neg (Option.some_ne_none y),
    if_neg (Option.some_ne_none a), if_neg (Option.some_ne_none b)]

/-- The COO part ends in the arithmetic fault, in success or in a HIP failure. -/
theorem hybmv_coo_part_outcome (rt : HipRuntime) (h : Handle) (d : MatDescr) (A : HybMat)
    (a : ℚ) (pre : List Action) :
    (hybmv_coo_part rt h d A a pre).outcome.after_device_work := by
  unfold hybmv_coo_part Outcome.after_device_work
  split
  · simp
  · simp only []
    split_ifs <;> simp

/-- The kernel selection either queues nothing or ends as device work does. -/
theorem hybmv_dispatch_outcome (rt : HipRuntime) (h : Handle) (trans : rocsparse_operation)
    (alpha beta : Option ℚ) (d : MatDescr) (A : HybMat) :
    (hybmv_dispatch rt h trans alpha beta d A).trace = [] ∨
    (hybmv_dispatch rt h trans alpha beta d A).outcome.after_device_work := by
  unfold hybmv_dispatch
  by_cases h1 : trans = rocsparse_operation_none
  swap
  · rw [if_neg h1]; exact Or.inl rfl
  rw [if_pos h1]
  by_cases h2 : h.pointer_mode = rocsparse_pointer_mode_device
  · rw [if_pos h2]; exact Or.inl rfl
  rw [if_neg h2]
  rcases alpha with _ | a
  · exact Or.inl rfl
  rcases beta with _ | b
  · exact Or.inl rfl
  simp only []
  by_cases h3 : a = 0 ∧ b = 1
  · rw [if_pos h3]; exact Or.inl rfl
  rw [if_neg h3]
  by_cases h4 : 0 < A.coo_nnz
  · rw [if_pos h4]; exact Or.inr (hybmv_coo_part_outcome _ _ _ _ _ _)
  · rw [if_neg h4]; exact Or.inr (Or.inr (Or.inl rfl))

/-- Any call either queues nothing or ends as device work does. -/
theorem template_trace_outcome (c : Call) :
    (rocsparse_hybmv_template c).trace = [] ∨
    (rocsparse_hybmv_template c).outcome.after_device_work :=
  template_cases (fun _ r => r.trace = [] ∨ r.outcome.after_device_work)
    (fun _ _ => Or.inl rfl) (fun _ => Or.inl rfl)
    (fun _ _ _ _ _ _ _ _ _ _ _ _ _ _ => hybmv_dispatch_outcome _ _ _ _ _ _ _) c

/-- With an empty trace the stream leaves `y` as it was. -/
theorem y_after_of_trace_nil (c : Call) (h : (rocsparse_hybmv_template c).trace = []) :
    y_after c = c.y := by
  unfold y_after
  rw [h]
  cases c.y <;> simp [device_run]

/-- A status returned by the kernel selection is success, not-implemented or a
HIP failure. -/
theorem hybmv_dispatch_status (rt : HipRuntime) (h : Handle) (trans : rocsparse_operation)
    (alpha beta : Option ℚ) (d : MatDescr) (A : HybMat) (s : rocsparse_status)
    (hret : (hybmv_dispatch rt h trans alpha beta d A).outcome = returned s) :
    s = rocsparse_status_success ∨ s = rocsparse_status_not_implemented ∨
      ∃ e, s = hip_failure e := by
  unfold hybmv_dispatch at hret
  by_cases h1 : trans = rocsparse_operation_none
  swap
  · rw [if_neg h1] at hret; cases hret; exact Or.inr (Or.inl rfl)
  rw [if_pos h1] at hret
  by_cases h2 : h.pointer_mode = rocsparse_pointer_mode_device
  · rw [if_pos h2] at hret; cases hret; exact Or.inl rfl
  rw [if_neg h2] at hret
  rcases alpha with _ | a
  · cases hret
  rcases beta with _ | b
  · cases hret
  dsimp only at hret
  by_cases h3 : a = 0 ∧ b = 1
  · rw [if_pos h3] at hret; cases hret; exact Or.inl rfl
  rw [if_neg h3] at hret
  by_cases hc : 0 < A.coo_nnz
  · rw [if_pos hc] at hret
    rcases hybmv_coo_part_outcome rt h d A a
      (if 0 < A.ell_nnz then
        [launch_ellmvn_host (ellmvn_blocks A.m) ELLMVN_DIM A.m A.n A.ell_width a b d.base]
      else []) with hf | hf | ⟨e, hf⟩
    · rw [hf] at hret; cases hret
    · rw [hf] at hret; cases hret; exact Or.inl rfl
    · rw [hf] at hret; cases hret; exact Or.inr (Or.inr ⟨e, rfl⟩)
  · rw [if_neg hc] at hret; cases hret; exact Or.inl rfl

/-- How the COO part ends: in the arithmetic fault; or with a failed
allocation, a HIP failure status and no launch beyond those queued before; or
with both COO launches queued after the work queued before. -/
theorem hybmv_coo_part_cases (rt : HipRuntime) (h : Handle) (d : MatDescr) (A : HybMat)
    (a : ℚ) (pre : List Action) :
    (hybmv_coo_part rt h d A a pre).outcome = fault division_by_zero ∨
    ((rt.malloc_row ≠ hipSuccess ∨ rt.malloc_val ≠ hipSuccess) ∧
      (∃ e, (hybmv_coo_part rt h d A a pre).outcome = returned (hip_failure e)) ∧
      (hybmv_coo_part rt h d A a pre).trace.filter Action.is_launch
        = pre.filter Action.is_launch) ∨
    ((hybmv_coo_part rt h d A a pre).trace.any Action.is_coo_warp_launch = true ∧
      (hybmv_coo_part rt h d A a pre).trace.any Action.is_block_reduce_launch = true ∧
      ∃ post, (hybmv_coo_part rt h d A a pre).trace = pre ++ post) := by
  unfold hybmv_coo_part
  rcases coomvn_grid h A.coo_nnz with _ | g
  · exact Or.inl rfl
  dsimp only
  by_cases m1 : rt.malloc_row = hipSuccess
  swap
  · rw [if_pos m1]
    refine Or.inr (Or.inl ⟨Or.inl m1, ⟨_, rfl⟩, ?_⟩)
    simp [Action.is_launch]
  rw [if_neg (not_not.mpr m1)]
  by_cases m2 : rt.malloc_val = hipSuccess
  swap
  · rw [if_pos m2]
    refine Or.inr (Or.inl ⟨Or.inr m2, ⟨_, rfl⟩, ?_⟩)
    simp [Action.is_launch]
  rw [if_neg (not_not.mpr m2)]
  refine Or.inr (Or.inr ?_)
  by_cases f1 : rt.free_row = hipSuccess
  swap
  · rw [if_pos f1]
    refine ⟨?_, ?_, ⟨_, by simp only [List.append_assoc]; rfl⟩⟩ <;>
      simp [Action.is_coo_warp_launch, Action.is_block_reduce_launch]
  rw [if_neg (not_not.mpr f1)]
  by_cases f2 : rt.free_val = hipSuccess
  swap
  · rw [if_pos f2]
    refine ⟨?_, ?_, ⟨_, by simp only [List.append_assoc]; rfl⟩⟩ <;>
      simp [Action.is_coo_warp_launch, Action.is_block_reduce_launch]
  rw [if_neg (not_not.mpr f2)]
  refine ⟨?_, ?_, ⟨_, by simp only [List.append_assoc]; rfl⟩⟩ <;>
    simp [Action.is_coo_warp_launch, Action.is_block_reduce_launch]

/-- A trace whose launches are none holds no launch. -/
theorem issues_no_launch_of_filter (t : List Action)
    (h : t.filter Action.is_launch = []) : issues_no_launch t := by
  unfold issues_no_launch
  rw [List.all_eq_true]
  intro a ha
  have := List.filter_eq_nil_iff.mp h a ha
  simpa using this

/-- The kernel selection is all-or-nothing unless a scratch allocation fails
after the ELL launch. -/
theorem hybmv_dispatch_launches (rt : HipRuntime) (h : Handle) (trans : rocsparse_operation)
    (alpha beta : Option ℚ) (d : MatDescr) (A : HybMat) (s : rocsparse_status)
    (hret : (hybmv_dispatch rt h trans alpha beta d A).outcome = returned s) :
    (issues_no_launch (hybmv_dispatch rt h trans alpha beta d A).trace ∨
      issues_every_launch A (hybmv_dispatch rt h trans alpha beta d A).trace) ∨
    ((rt.malloc_row ≠ hipSuccess ∨ rt.malloc_val ≠ hipSuccess) ∧
      (∃ e, s = hip_failure e) ∧
      ∃ a, a.is_ell_launch = true ∧
        (hybmv_dispatch rt h trans alpha beta d A).trace.filter Action.is_launch = [a]) := by
  unfold hybmv_dispatch at hret ⊢
  by_cases h1 : trans = rocsparse_operation_none
  swap
  · rw [if_neg h1]; exact Or.inl (Or.inl rfl)
  rw [if_pos h1] at hret ⊢
  by_cases h2 : h.pointer_mode = rocsparse_pointer_mode_device
  · rw [if_pos h2]; exact Or.inl (Or.inl rfl)
  rw [if_neg h2] at hret ⊢
  rcases alpha with _ | a
  · exact Or.inl (Or.inl rfl)
  rcases beta with _ | b
  · exact Or.inl (Or.inl rfl)
  dsimp only at hret ⊢
  by_cases h3 : a = 0 ∧ b = 1
  · rw [if_pos h3]; exact Or.inl (Or.inl rfl)
  rw [if_neg h3] at hret ⊢
  by_cases hc : 0 < A.coo_nnz
  swap
  · rw [if_neg hc]
    refine Or.inl (Or.inr ⟨fun he => ?_, fun h0 => absurd h0 hc⟩)
    rw [if_pos he]; rfl
  rw [if_pos hc] at hret ⊢
  rcases hybmv_coo_part_cases rt h d A a
      (if 0 < A.ell_nnz then
        [launch_ellmvn_host (ellmvn_blocks A.m) ELLMVN_DIM A.m A.n A.ell_width a b d.base]
      else []) with hf | ⟨hm, ⟨e, he⟩, hl⟩ | ⟨hw, hb, post, hpost⟩
  · rw [hf] at hret; cases hret
  · by_cases he0 : 0 < A.ell_nnz
    · refine Or.inr ⟨hm, ⟨e, ?_⟩,
        launch_ellmvn_host (ellmvn_blocks A.m) ELLMVN_DIM A.m A.n A.ell_width a b d.base,
        rfl, ?_⟩
      · rw [he] at hret; cases hret; rfl
      · rw [hl, if_pos he0]; rfl
    · refine Or.inl (Or.inl (issues_no_launch_of_filter _ ?_))
      rw [hl, if_neg he0]; rfl
  · refine Or.inl (Or.inr ⟨fun he0 => ?_, fun _ => ⟨hw, hb⟩⟩)
    rw [hpost, if_pos he0]
    rfl

/-! ## Arithmetic of the grid computation -/

/-- The 32-bit sum of two counts whose integer sum is zero is zero. -/
theorem add32_eq_zero_of_sum (a b : Int) (h : a + b = 0) : add32 a b = 0 := by
  unfold add32 wrap32
  rw [h]
  decide

/-- A value in the 32-bit range is left alone by the wrap. -/
theorem wrap32_eq_self (z : Int) (h1 : -(2 ^ 31) ≤ z) (h2 : z < 2 ^ 31) : wrap32 z = z := by
  unfold wrap32; omega

/-- The wrap lands in the 32-bit range. -/
theorem wrap32_range (z : Int) : -(2 ^ 31) ≤ wrap32 z ∧ wrap32 z < 2 ^ 31 := by
  unfold wrap32; omega

/-- The source's `(v - 1) / 128 + 1` on a 32-bit value `v ≥ 1` is the exact
integer expression. -/
theorem blocks_of_count (v : Int) (h1 : 1 ≤ v) (h2 : v < 2 ^ 31) :
    add32 (wrap32 (Int.tdiv (sub32 v 1) COOMVN_DIM)) 1 = (v - 1) / 128 + 1 := by
  have e1 : sub32 v 1 = v - 1 := by unfold sub32; exact wrap32_eq_self _ (by omega) (by omega)
  have e2 : Int.tdiv (v - 1) 128 = (v - 1) / 128 := Int.tdiv_eq_ediv (by omega) (by decide)
  have e3 : wrap32 ((v - 1) / 128) = (v - 1) / 128 :=
    wrap32_eq_self _ (by omega) (by omega)
  unfold COOMVN_DIM add32
  rw [e1, e2, e3]
  exact wrap32_eq_self _ (by omega) (by omega)

/-- The value `maxblocks` when the 32-bit product of the device is at least 1. -/
theorem coomvn_maxblocks_eq (h : Handle)
    (hp : 1 ≤ mul32 h.properties.multiProcessorCount h.properties.maxThreadsPerBlock) :
    coomvn_maxblocks h
      = (mul32 h.properties.multiProcessorCount h.properties.maxThreadsPerBlock - 1) / 128 + 1 := by
  unfold coomvn_maxblocks
  exact blocks_of_count _ hp (wrap32_range _).2

/-- The value `minblocks` for a 32-bit count of at least 1. -/
theorem coomvn_minblocks_eq (c : Int) (h1 : 1 ≤ c) (h2 : c < 2 ^ 31) :
    coomvn_minblocks c = (c - 1) / 128 + 1 := by
  unfold coomvn_minblocks
  exact blocks_of_count _ h1 h2

/-- The grid computation, spelled with the three block counts. -/
theorem coomvn_grid_eq (h : Handle) (c : Int) :
    coomvn_grid h c =
      match div32 COOMVN_DIM h.warp_size with
      | none => none
      | some wpb =>
        match div32 c h.warp_size with
        | none => none
        | some q =>
          match div32 (add32 q 1) (mul32 (coomvn_nblocks h c) wpb) with
          | none => none
          | some l =>
            some ⟨coomvn_maxblocks h, coomvn_minblocks c, coomvn_nblocks h c,
              mul32 (coomvn_nblocks h c) wpb, add32 l 1⟩ := rfl

/-- The block count of any grid the routine computes is `coomvn_nblocks`. -/
theorem coomvn_grid_nblocks (h : Handle) (c : Int) (g : CooGrid)
    (hg : coomvn_grid h c = some g) : g.nblocks = coomvn_nblocks h c := by
  rw [coomvn_grid_eq] at hg
  cases h1 : div32 COOMVN_DIM h.warp_size with
  | none => rw [h1] at hg; cases hg
  | some wpb =>
    rw [h1] at hg
    dsimp only at hg
    cases h2 : div32 c h.warp_size with
    | none => rw [h2] at hg; cases hg
    | some q =>
      rw [h2] at hg
      dsimp only at hg
      cases h3 : div32 (add32 q 1) (mul32 (coomvn_nblocks h c) wpb) with
      | none => rw [h3] at hg; cases hg
      | some l =>
        rw [h3] at hg
        dsimp only at hg
        cases hg
        rfl

/-- The block count as a minimum of two ceilings, for a 32-bit count of at
least 1 and a 32-bit device product of at least 1. -/
theorem coomvn_nblocks_min (h : Handle) (c : Int) (hc1 : 1 ≤ c) (hc2 : c < 2 ^ 31)
    (hp : 1 ≤ mul32 h.properties.multiProcessorCount h.properties.maxThreadsPerBlock) :
    coomvn_nblocks h c
      = min ((mul32 h.properties.multiProcessorCount h.properties.maxThreadsPerBlock + 127) / 128)
          ((c + 127) / 128) := by
  have e1 := coomvn_maxblocks_eq h hp
  have e2 := coomvn_minblocks_eq c hc1 hc2
  unfold coomvn_nblocks
  rw [e1, e2]
  by_cases hlt2 : (mul32 h.properties.multiProcessorCount h.properties.maxThreadsPerBlock - 1)
      / 128 + 1 < (c - 1) / 128 + 1
  · rw [if_pos hlt2]; omega
  · rw [if_neg hlt2]; omega

/-- The COO grid when nothing overflows: for a 32-bit `coo_nnz ≥ 1`, a warp
size from 1 to 128, a 32-bit device product of at least 1 and, when the warp
size is 1, `coo_nnz ≤ 2^31 - 128`, the routine computes
`nwarps = nblocks * (128 / ws)` and `nloops = (coo_nnz / ws + 1) / nwarps + 1`
exactly, with `nblocks ≥ 1` and `128 / ws ≥ 1`. -/
theorem coomvn_grid_exact (h : Handle) (c : Int)
    (hc1 : 1 ≤ c) (hc2 : c < 2 ^ 31)
    (hw1 : 1 ≤ h.warp_size) (hw2 : h.warp_size ≤ 128)
    (hp : 1 ≤ mul32 h.properties.multiProcessorCount h.properties.maxThreadsPerBlock)
    (hov : 2 ≤ h.warp_size ∨ c + 128 ≤ 2 ^ 31) :
    coomvn_grid h c = some ⟨coomvn_maxblocks h, coomvn_minblocks c, coomvn_nblocks h c,
      coomvn_nblocks h c * (128 / h.warp_size),
      (c / h.warp_size + 1) / (coomvn_nblocks h c * (128 / h.warp_size)) + 1⟩ ∧
    1 ≤ coomvn_nblocks h c ∧ 1 ≤ 128 / h.warp_size ∧
    1 ≤ coomvn_nblocks h c * (128 / h.warp_size) ∧
    0 ≤ (c / h.warp_size + 1) / (coomvn_nblocks h c * (128 / h.warp_size)) := by
  have hws0 : (0 : Int) < h.warp_size := by omega
  have hwsne : h.warp_size ≠ 0 := by omega
  -- the block count
  have hnb := coomvn_nblocks_min h c hc1 hc2 hp
  have hnb1 : 1 ≤ coomvn_nblocks h c := by rw [hnb]; omega
  have hnb2 : coomvn_nblocks h c ≤ (c + 127) / 128 := by rw [hnb]; exact min_le_right _ _
  -- warps per block
  have hwpb1 : 1 ≤ 128 / h.warp_size := Int.le_ediv_of_mul_le hws0 (by omega)
  have hwpb2 : 128 / h.warp_size ≤ 128 := Int.ediv_le_self _ (by decide)
  have hwpb3 : 128 / h.warp_size * h.warp_size ≤ 128 := Int.ediv_mul_le _ hwsne
  have d1 : div32 COOMVN_DIM h.warp_size = some (128 / h.warp_size) := by
    unfold div32 COOMVN_DIM
    rw [if_neg hwsne, Int.tdiv_eq_ediv (by decide) (by omega),
      wrap32_eq_self _ (by omega) (by omega)]
  -- entries per lane
  have hq0 : 0 ≤ c / h.warp_size := Int.ediv_nonneg (by omega) (by omega)
  have hq1 : c / h.warp_size ≤ c := Int.ediv_le_self _ (by omega)
  have hq2 : c / h.warp_size * h.warp_size ≤ c := Int.ediv_mul_le _ hwsne
  have hq3 : c / h.warp_size + 2 < 2 ^ 31 := by
    rcases hov with h2 | h2
    · have : c / h.warp_size * 2 ≤ c / h.warp_size * h.warp_size :=
        Int.mul_le_mul_of_nonneg_left h2 hq0
      omega
    · omega
  have d2 : div32 c h.warp_size = some (c / h.warp_size) := by
    unfold div32
    rw [if_neg hwsne, Int.tdiv_eq_ediv (by omega) (by omega),
      wrap32_eq_self _ (by omega) (by omega)]
  -- the warp count
  have hnw1 : 1 ≤ coomvn_nblocks h c * (128 / h.warp_size) := by
    have : 0 < coomvn_nblocks h c * (128 / h.warp_size) :=
      Int.mul_pos (by omega) (by omega)
    omega
  have hnw2 : coomvn_nblocks h c * (128 / h.warp_size) < 2 ^ 31 := by
    rcases hov with h2 | h2
    · have hw64 : 128 / h.warp_size ≤ 64 := by
        have : 128 / h.warp_size * 2 ≤ 128 / h.warp_size * h.warp_size :=
          Int.mul_le_mul_of_nonneg_left h2 (by omega)
        omega
      have hb : coomvn_nblocks h c ≤ 16777216 := by omega
      have : coomvn_nblocks h c * (128 / h.warp_size) ≤ 16777216 * 64 :=
        Int.mul_le_mul hb hw64 (by omega) (by decide)
      omega
    · have hb : coomvn_nblocks h c ≤ 16777215 := by omega
      have : coomvn_nblocks h c * (128 / h.warp_size) ≤ 16777215 * 128 :=
        Int.mul_le_mul hb hwpb2 (by omega) (by decide)
      omega
  have m1 : mul32 (coomvn_nblocks h c) (128 / h.warp_size)
      = coomvn_nblocks h c * (128 / h.warp_size) := by
    unfold mul32; exact wrap32_eq_self _ (by omega) hnw2
  have a1 : add32 (c / h.warp_size) 1 = c / h.warp_size + 1 := by
    unfold add32; exact wrap32_eq_self _ (by omega) (by omega)
  -- passes per warp
  have hl0 : 0 ≤ (c / h.warp_size + 1) / (coomvn_nblocks h c * (128 / h.warp_size)) :=
    Int.ediv_nonneg (by omega) (by omega)
  have hl1 : (c / h.warp_size + 1) / (coomvn_nblocks h c * (128 / h.warp_size))
      ≤ c / h.warp_size + 1 := Int.ediv_le_self _ (by omega)
  have d3 : div32 (c / h.warp_size + 1) (coomvn_nblocks h c * (128 / h.warp_size))
      = some ((c / h.warp_size + 1) / (coomvn_nblocks h c * (128 / h.warp_size))) := by
    unfold div32
    rw [if_neg (by omega), Int.tdiv_eq_ediv (by omega) (by omega),
      wrap32_eq_self _ (by omega) (by omega)]
  have a2 : add32 ((c / h.warp_size + 1) / (coomvn_nblocks h c * (128 / h.warp_size))) 1
      = (c / h.warp_size + 1) / (coomvn_nblocks h c * (128 / h.warp_size)) + 1 := by
    unfold add32; exact wrap32_eq_self _ (by omega) (by omega)
  refine ⟨?_, hnb1, hwpb1, hnw1, hl0⟩
  rw [coomvn_grid_eq, d1]
  dsimp only
  rw [d2]
  dsimp only
  rw [a1, m1, d3]
  dsimp only
  rw [a2]

/-! ## Claims -/

/-- C1. The failing input of the reference identity: the example of section 8
(`m = n = 3`, ELL width 1, values `[2, pad, 3]`, empty COO part, `x = [1,1,1]`,
`alpha = 1`, `beta = 0`) on a handle in device pointer mode. The routine returns
success with nothing queued, so `y` keeps its old value `[5,5,5]`, whereas
`alpha * (ELL + COO) + beta * y` is `[2,0,3]`, which is also what the same call
produces in host pointer mode. -/
theorem hybmv_device_mode_misses_reference_result :
    rocsparse_hybmv_template (call_example handle_device)
      = ⟨returned rocsparse_status_success, []⟩ ∧
    y_after (call_example handle_device) = some [5, 5, 5] ∧
    y_after (call_example handle_host) = some [2, 0, 3] ∧
    hybmv_reference hyb_example 0 1 0 [1, 1, 1] [5, 5, 5] = [2, 0, 3] := by
  refine ⟨by decide, by decide, by decide!, ?_⟩
  simp [hybmv_reference, hyb_example, ellmvn_row_sum, coo_row_sum, List.enum, List.enumFrom,
    List.range, List.range.loop]

/-- C2. The failing input of the device-mode launches: a valid call with
`ell_nnz = 3 > 0` and `coo_nnz = 1 > 0`. In device pointer mode the routine
returns success with an empty trace; in host pointer mode the same call queues
the ELL launch, the two allocations, the two COO launches and the two frees. -/
theorem hybmv_device_mode_launches_nothing :
    rocsparse_hybmv_template (call_on runtime_ok handle_device hyb_both (some 1) (some 0))
      = ⟨returned rocsparse_status_success, []⟩ ∧
    rocsparse_hybmv_template (call_on runtime_ok handle_host hyb_both (some 1) (some 0))
      = ⟨returned rocsparse_status_success,
          [launch_ellmvn_host 1 512 3 3 1 1 0 rocsparse_index_base_zero,
           hipMalloc_row_block_red 2 hipSuccess,
           hipMalloc_val_block_red 2 hipSuccess,
           launch_coomvn_warp_host 128 64 1 128 1 1 1 rocsparse_index_base_zero,
           launch_coomvn_block_reduce 128 1 128 2,
           hipFree_row_block_red hipSuccess,
           hipFree_val_block_red hipSuccess]⟩ := by
  exact ⟨by decide, by decide⟩

/-- C3 (as stated) fails: on a valid host-mode call with `ell_nnz = 3` and
`coo_nnz = 1` whose first scratch allocation fails, the routine returns the HIP
failure with the ELL launch queued and no COO launch, which is neither no
launch nor every required launch. -/
theorem hybmv_alloc_failure_after_ell_launch :
    rocsparse_hybmv_template (call_on runtime_no_memory handle_host hyb_both (some 1) (some 0))
      = ⟨returned (hip_failure (hipFailure 2)),
          [launch_ellmvn_host 1 512 3 3 1 1 0 rocsparse_index_base_zero,
           hipMalloc_row_block_red 2 (hipFailure 2)]⟩ ∧
    ¬ no_partial_success (call_on runtime_no_memory handle_host hyb_both (some 1) (some 0)) := by
  exact ⟨by decide, by decide⟩

/-- C3 (amended). For every input on which the call returns a status, and every
outcome of the allocations and frees: the call queues no kernel launch, or it
queues every launch the operation requires (the ELL launch if `ell_nnz > 0`,
both COO launches if `coo_nnz > 0`), or a scratch allocation has failed, in
which case the call returns the HIP failure status with the ELL launch as the
only launch queued. -/
theorem hybmv_launches_all_or_nothing_unless_alloc_fails (c : Call) (s : rocsparse_status)
    (hret : (rocsparse_hybmv_template c).outcome = returned s) :
    no_partial_success c ∨
    ((c.rt.malloc_row ≠ hipSuccess ∨ c.rt.malloc_val ≠ hipSuccess) ∧
      (∃ e, s = hip_failure e) ∧
      ∃ a, a.is_ell_launch = true ∧
        (rocsparse_hybmv_template c).trace.filter Action.is_launch = [a]) := by
  unfold no_partial_success
  exact template_cases
    (fun c r => ∀ s, r.outcome = returned s →
      (issues_no_launch r.trace ∨
        match c.hyb with
        | some A => issues_every_launch A r.trace
        | none => False) ∨
      ((c.rt.malloc_row ≠ hipSuccess ∨ c.rt.malloc_val ≠ hipSuccess) ∧
        (∃ e, s = hip_failure e) ∧
        ∃ a, a.is_ell_launch = true ∧ r.trace.filter Action.is_launch = [a]))
    (fun _ _ _ _ => Or.inl (Or.inl rfl))
    (fun _ _ _ => Or.inl (Or.inl rfl))
    (fun rt h trans a b d A _ _ _ _ _ _ _ s hs =>
      hybmv_dispatch_launches rt h trans (some a) (some b) d A s hs)
    c s hret

/-- Witness of C3 (amended): with every allocation and free succeeding the call
on the matrix with both parts returns success, and it is all-or-nothing. -/
theorem hybmv_launches_all_or_nothing_unless_alloc_fails_witness :
    (rocsparse_hybmv_template (call_on runtime_ok handle_host hyb_both (some 1) (some 0))).outcome
      = returned rocsparse_status_success ∧
    (no_partial_success (call_on runtime_ok handle_host hyb_both (some 1) (some 0)) ∨
      ((runtime_ok.malloc_row ≠ hipSuccess ∨ runtime_ok.malloc_val ≠ hipSuccess) ∧
        (∃ e, rocsparse_status_success = hip_failure e) ∧
        ∃ a, a.is_ell_launch = true ∧
          (rocsparse_hybmv_template
            (call_on runtime_ok handle_host hyb_both (some 1) (some 0))).trace.filter
              Action.is_launch = [a])) :=
  ⟨by decide,
    hybmv_launches_all_or_nothing_unless_alloc_fails
      (call_on runtime_ok handle_host hyb_both (some 1) (some 0))
      rocsparse_status_success (by decide)⟩

/-- C4. The failing input of the single beta scaling: a valid host-mode call
with `ell_nnz = 0`, `coo_nnz = 4`, `alpha = 1`, `beta = 2`. The routine returns
success having queued the two COO launches, none of the queued actions is
passed `beta`, and `y` ends as `[6,9,10]` (the old `y` plus the COO product)
where the reference result is `[11,14,15]`. -/
theorem hybmv_coo_only_never_passes_beta :
    (rocsparse_hybmv_template
        (call_on runtime_ok handle_host hyb_coo_only (some 1) (some 2))).outcome
      = returned rocsparse_status_success ∧
    (rocsparse_hybmv_template
        (call_on runtime_ok handle_host hyb_coo_only (some 1) (some 2))).trace.any
      Action.is_coo_warp_launch = true ∧
    (rocsparse_hybmv_template
        (call_on runtime_ok handle_host hyb_coo_only (some 1) (some 2))).trace.any
      Action.receives_beta = false ∧
    y_after (call_on runtime_ok handle_host hyb_coo_only (some 1) (some 2)) = some [6, 9, 10] ∧
    hybmv_reference hyb_coo_only 0 1 2 [1, 1, 1] [5, 5, 5] = [11, 14, 15] := by
  refine ⟨by decide, by decide, by decide, by decide!, by decide!⟩

/-- C5. A validation error is returned before any device work: whenever the
routine returns invalid-handle, invalid-pointer, invalid-value, invalid-size or
not-implemented, its trace of launches, allocations and frees is empty, and `y`
is what it was before the call. -/
theorem hybmv_validation_error_has_empty_trace (c : Call) (s : rocsparse_status)
    (hret : (rocsparse_hybmv_template c).outcome = returned s)
    (herr : s.is_validation_error = true) :
    (rocsparse_hybmv_template c).trace = [] ∧ y_after c = c.y := by
  have ht : (rocsparse_hybmv_template c).trace = [] := by
    rcases template_trace_outcome c with h | h
    · exact h
    · exfalso
      rw [hret] at h
      rcases h with h | h | ⟨e, h⟩
      · cases h
      · cases h; cases herr
      · cases h; cases herr
  exact ⟨ht, y_after_of_trace_nil c ht⟩

/-- Witness of C5: a host-mode call (trace logging off) whose `alpha` is absent
returns invalid-pointer, and its trace is empty. -/
theorem hybmv_validation_error_has_empty_trace_witness :
    (rocsparse_hybmv_template
        (call_on runtime_ok handle_host hyb_example none (some 0))).outcome
      = returned rocsparse_status_invalid_pointer ∧
    rocsparse_status_invalid_pointer.is_validation_error = true ∧
    (rocsparse_hybmv_template
        (call_on runtime_ok handle_host hyb_example none (some 0))).trace = [] ∧
    y_after (call_on runtime_ok handle_host hyb_example none (some 0))
      = (call_on runtime_ok handle_host hyb_example none (some 0)).y :=
  ⟨by decide, by decide,
    hybmv_validation_error_has_empty_trace
      (call_on runtime_ok handle_host hyb_example none (some 0))
      rocsparse_status_invalid_pointer (by decide) (by decide)⟩

/-- C6. With `alpha = 0` and `beta = 1` a valid, non-degenerate no-transpose
call returns success and leaves `y` as it was, in either pointer mode; in host
pointer mode it does so with an empty trace (no launch, no allocation). -/
theorem hybmv_alpha_zero_beta_one_keeps_y (rt : HipRuntime) (h : Handle) (d : MatDescr)
    (A : HybMat) (x y : List ℚ)
    (hb : legal_index_base d.base) (ht : d.type = rocsparse_matrix_type_general)
    (hs : sizes_valid A) (hp : arrays_present A) (hnd : ¬ degenerate A) :
    (rocsparse_hybmv_template
        ⟨rt, some h, rocsparse_operation_none, some 0, some d, some A, some x, some 1, some y⟩).outcome
      = returned rocsparse_status_success ∧
    y_after ⟨rt, some h, rocsparse_operation_none, some 0, some d, some A, some x, some 1, some y⟩
      = some y ∧
    (h.pointer_mode = rocsparse_pointer_mode_host →
      (rocsparse_hybmv_template
        ⟨rt, some h, rocsparse_operation_none, some 0, some d, some A, some x, some 1, some y⟩).trace
      = []) := by
  have key : rocsparse_hybmv_template
      ⟨rt, some h, rocsparse_operation_none, some 0, some d, some A, some x, some 1, some y⟩
      = ⟨returned rocsparse_status_success, []⟩ := by
    rw [template_of_valid rt h _ 0 1 d A x y hb ht hs hp, if_neg hnd]
    unfold hybmv_dispatch
    rw [if_pos rfl]
    by_cases hm : h.pointer_mode = rocsparse_pointer_mode_device
    · rw [if_pos hm]
    · rw [if_neg hm]
      simp
  refine ⟨by rw [key], ?_, fun _ => by rw [key]⟩
  rw [y_after_of_trace_nil _ (by rw [key])]

/-- Witness of C6: the example matrix of section 8 with `alpha = 0`, `beta = 1`,
in host and in device pointer mode. -/
theorem hybmv_alpha_zero_beta_one_keeps_y_witness :
    (legal_index_base descr_general.base ∧
      descr_general.type = rocsparse_matrix_type_general ∧
      sizes_valid hyb_example ∧ arrays_present hyb_example ∧ ¬ degenerate hyb_example) ∧
    y_after ⟨runtime_ok, some handle_host, rocsparse_operation_none, some 0, some descr_general,
        some hyb_example, some [1, 1, 1], some 1, some [5, 5, 5]⟩ = some [5, 5, 5] ∧
    y_after ⟨runtime_ok, some handle_device, rocsparse_operation_none, some 0, some descr_general,
        some hyb_example, some [1, 1, 1], some 1, some [5, 5, 5]⟩ = some [5, 5, 5] :=
  ⟨by decide,
    (hybmv_alpha_zero_beta_one_keeps_y runtime_ok handle_host descr_general hyb_example
      [1, 1, 1] [5, 5, 5] (by decide) (by decide) (by decide) (by decide) (by decide)).2.1,
    (hybmv_alpha_zero_beta_one_keeps_y runtime_ok handle_device descr_general hyb_example
      [1, 1, 1] [5, 5, 5] (by decide) (by decide) (by decide) (by decide) (by decide)).2.1⟩

/-- C7. Degenerate sizes are a successful no-op: a call that passes every
validation check (handle, descriptor, matrix, the arrays of each non-empty
sub-format and `x`, `y`, `alpha`, `beta` present; legal index base; general
type; no invalid size) and has `m = 0` or `n = 0` or `ell_nnz + coo_nnz = 0`
returns success with an empty trace, whatever the operation, the pointer mode,
the scalars and the runtime are. -/
theorem hybmv_degenerate_sizes_quick_return (rt : HipRuntime) (h : Handle)
    (trans : rocsparse_operation) (a b : ℚ) (d : MatDescr) (A : HybMat) (x y : List ℚ)
    (hb : legal_index_base d.base) (ht : d.type = rocsparse_matrix_type_general)
    (hs : sizes_valid A) (hp : arrays_present A)
    (hdeg : A.m = 0 ∨ A.n = 0 ∨ A.ell_nnz + A.coo_nnz = 0) :
    rocsparse_hybmv_template ⟨rt, some h, trans, some a, some d, some A, some x, some b, some y⟩
      = ⟨returned rocsparse_status_success, []⟩ := by
  have hd : degenerate A := by
    rcases hdeg with h0 | h0 | h0
    · exact Or.inl h0
    · exact Or.inr (Or.inl h0)
    · exact Or.inr (Or.inr (add32_eq_zero_of_sum _ _ h0))
  rw [template_of_valid rt h trans a b d A x y hb ht hs hp, if_pos hd]

/-- Witness of C7: `m = 0` with `coo_nnz = 2` declared (transpose requested, in
device pointer mode, with failing allocations), and `ell_nnz + coo_nnz = 0`
with `m = n = 3`. -/
theorem hybmv_degenerate_sizes_quick_return_witness :
    (sizes_valid hyb_no_rows ∧ arrays_present hyb_no_rows ∧ hyb_no_rows.m = 0 ∧
      0 < hyb_no_rows.coo_nnz) ∧
    rocsparse_hybmv_template ⟨runtime_no_memory, some handle_device,
        rocsparse_operation_transpose, some 3, some descr_general, some hyb_no_rows,
        some [1, 1, 1], some 7, some []⟩
      = ⟨returned rocsparse_status_success, []⟩ ∧
    (sizes_valid hyb_no_entries ∧ arrays_present hyb_no_entries ∧
      hyb_no_entries.ell_nnz + hyb_no_entries.coo_nnz = 0 ∧
      0 < hyb_no_entries.m ∧ 0 < hyb_no_entries.n) ∧
    rocsparse_hybmv_template ⟨runtime_ok, some handle_host, rocsparse_operation_none,
        some 3, some descr_general, some hyb_no_entries, some [1, 1, 1], some 7,
        some [5, 5, 5]⟩
      = ⟨returned rocsparse_status_success, []⟩ :=
  ⟨by decide,
    hybmv_degenerate_sizes_quick_return runtime_no_memory handle_device
      rocsparse_operation_transpose 3 7 descr_general hyb_no_rows [1, 1, 1] []
      (by decide) (by decide) (by decide) (by decide) (by decide),
    by decide,
    hybmv_degenerate_sizes_quick_return runtime_ok handle_host rocsparse_operation_none 3 7
      descr_general hyb_no_entries [1, 1, 1] [5, 5, 5]
      (by decide) (by decide) (by decide) (by decide) (by decide)⟩

/-- C8. The failing input of the validation order: handle, descriptor and matrix
present, index base neither zero nor one, host pointer mode with trace logging
on, and `alpha` absent. The trace logger reads `*alpha` before the index base
is checked, so the call ends in a null dereference instead of returning
invalid-value. With trace logging off the same call returns invalid-value. -/
theorem hybmv_bad_base_with_null_alpha_faults :
    rocsparse_hybmv_template (call_bad_base_null_alpha handle_host_logging)
      = ⟨fault null_dereference, []⟩ ∧
    rocsparse_hybmv_template (call_bad_base_null_alpha handle_host)
      = ⟨returned rocsparse_status_invalid_value, []⟩ := by
  exact ⟨by decide, by decide⟩

/-- C9. The failing input of the absent-pointer rule: a valid call in host
pointer mode with trace logging on whose `alpha` is absent. The trace logger
reads `*alpha` before the pointer checks, so the call ends in a null
dereference instead of returning invalid-pointer. With trace logging off, and
in device pointer mode, the same call returns invalid-pointer. -/
theorem hybmv_null_alpha_host_mode_faults :
    rocsparse_hybmv_template (call_on runtime_ok handle_host_logging hyb_example none (some 0))
      = ⟨fault null_dereference, []⟩ ∧
    rocsparse_hybmv_template (call_on runtime_ok handle_host hyb_example none (some 0))
      = ⟨returned rocsparse_status_invalid_pointer, []⟩ ∧
    rocsparse_hybmv_template (call_on runtime_ok handle_device hyb_example none (some 0))
      = ⟨returned rocsparse_status_invalid_pointer, []⟩ := by
  exact ⟨by decide, by decide, by decide⟩

/-- C10 (as stated) fails: with `ell_nnz = coo_nnz = 2^30` every field is a
32-bit value and none of `m < 0`, `n < 0`, `ell_nnz + coo_nnz < 0` (integer
sum), `ell_nnz > 0` and `ell_width < 0` holds, yet the routine returns
invalid-size, because the 32-bit sum is `-2^31`. -/
theorem hybmv_size_sum_overflow_rejected :
    (isInt32 hyb_large_counts.ell_nnz ∧ isInt32 hyb_large_counts.coo_nnz) ∧
    ¬ ((rocsparse_hybmv_template
          (call_on runtime_ok handle_host hyb_large_counts (some 1) (some 0))).outcome
        = returned rocsparse_status_invalid_size ↔
      (hyb_large_counts.m < 0 ∨ hyb_large_counts.n < 0 ∨
        hyb_large_counts.ell_nnz + hyb_large_counts.coo_nnz < 0 ∨
        (0 < hyb_large_counts.ell_nnz ∧ hyb_large_counts.ell_width < 0))) := by
  exact ⟨by decide, by decide⟩

/-- C10 (amended). With handle, descriptor and matrix present, the index base
legal and the type general, whatever the other fields and pointers are (`alpha`
and `beta` may be absent, except in host pointer mode with trace logging on),
the routine returns invalid-size if and only if `m < 0`, or `n < 0`, or the sum
`ell_nnz + coo_nnz` computed in 32-bit signed arithmetic is negative, or
`ell_nnz > 0` and `ell_width < 0`. -/
theorem hybmv_invalid_size_iff (rt : HipRuntime) (h : Handle) (trans : rocsparse_operation)
    (alpha beta : Option ℚ) (d : MatDescr) (A : HybMat) (x y : Option (List ℚ))
    (hb : legal_index_base d.base) (ht : d.type = rocsparse_matrix_type_general)
    (hlog : h.pointer_mode = rocsparse_pointer_mode_host → h.log_trace = true →
      alpha ≠ none ∧ beta ≠ none) :
    (rocsparse_hybmv_template ⟨rt, some h, trans, alpha, some d, some A, x, beta, y⟩).outcome
        = returned rocsparse_status_invalid_size ↔
      (A.m < 0 ∨ A.n < 0 ∨ add32 A.ell_nnz A.coo_nnz < 0 ∨
        (0 < A.ell_nnz ∧ A.ell_width < 0)) := by
  have r1 : ¬ log_trace_reads h alpha beta = false := by
    unfold log_trace_reads
    by_cases hm : h.pointer_mode = rocsparse_pointer_mode_host ∧ h.log_trace = true
    · rw [if_pos hm]
      obtain ⟨ha, hb⟩ := hlog hm.1 hm.2
      rcases alpha with _ | a
      · exact absurd rfl ha
      rcases beta with _ | b
      · exact absurd rfl hb
      exact Bool.noConfusion
    · rw [if_neg hm]; exact Bool.noConfusion
  have c1 : ¬ (d.base ≠ rocsparse_index_base_zero ∧ d.base ≠ rocsparse_index_base_one) :=
    fun hc => hb.elim hc.1 hc.2
  unfold rocsparse_hybmv_template
  dsimp only
  rw [if_neg r1, if_neg c1, if_neg (not_not.mpr ht)]
  by_cases c3 : A.m < 0
  · rw [if_pos c3]; exact iff_of_true rfl (Or.inl c3)
  rw [if_neg c3]
  by_cases c4 : A.n < 0
  · rw [if_pos c4]; exact iff_of_true rfl (Or.inr (Or.inl c4))
  rw [if_neg c4]
  by_cases c5 : add32 A.ell_nnz A.coo_nnz < 0
  · rw [if_pos c5]; exact iff_of_true rfl (Or.inr (Or.inr (Or.inl c5)))
  rw [if_neg c5]
  by_cases c6 : 0 < A.ell_nnz ∧ A.ell_width < 0
  · rw [if_pos c6]; exact iff_of_true rfl (Or.inr (Or.inr (Or.inr c6)))
  rw [if_neg c6]
  refine iff_of_false ?_ (fun hr => hr.elim c3 fun hr => hr.elim c4 fun hr => hr.elim c5 c6)
  by_cases c7 : 0 < A.ell_nnz ∧ A.ell_col_ind = none
  · rw [if_pos c7]; exact fun hh => by cases hh
  rw [if_neg c7]
  by_cases c8 : 0 < A.ell_nnz ∧ A.ell_val = none
  · rw [if_pos c8]; exact fun hh => by cases hh
  rw [if_neg c8]
  by_cases c9 : 0 < A.coo_nnz ∧ A.coo_row_ind = none
  · rw [if_pos c9]; exact fun hh => by cases hh
  rw [if_neg c9]
  by_cases c10 : 0 < A.coo_nnz ∧ A.coo_col_ind = none
  · rw [if_pos c10]; exact fun hh => by cases hh
  rw [if_neg c10]
  by_cases c11 : 0 < A.coo_nnz ∧ A.coo_val = none
  · rw [if_pos c11]; exact fun hh => by cases hh
  rw [if_neg c11]
  by_cases c12 : x = none
  · rw [if_pos c12]; exact fun hh => by cases hh
  rw [if_neg c12]
  by_cases c13 : y = none
  · rw [if_pos c13]; exact fun hh => by cases hh
  rw [if_neg c13]
  by_cases c14 : alpha = none
  · rw [if_pos c14]; exact fun hh => by cases hh
  rw [if_neg c14]
  by_cases c15 : beta = none
  · rw [if_pos c15]; exact fun hh => by cases hh
  rw [if_neg c15]
  by_cases c16 : A.m = 0 ∨ A.n = 0 ∨ add32 A.ell_nnz A.coo_nnz = 0
  · rw [if_pos c16]; exact fun hh => by cases hh
  rw [if_neg c16]
  intro hh
  rcases hybmv_dispatch_status _ _ _ _ _ _ _ _ hh with e | e | ⟨_, e⟩ <;> cases e

/-- Witness of C10 (amended): a negative row count is rejected as invalid-size
in host pointer mode with trace logging off, also when `alpha` is absent. -/
theorem hybmv_invalid_size_iff_witness :
    (legal_index_base descr_general.base ∧
      descr_general.type = rocsparse_matrix_type_general ∧
      (handle_host.pointer_mode = rocsparse_pointer_mode_host →
        handle_host.log_trace = true →
        (none : Option ℚ) ≠ none ∧ (some 0 : Option ℚ) ≠ none)) ∧
    (rocsparse_hybmv_template ⟨runtime_ok, some handle_host, rocsparse_operation_none, none,
          some descr_general, some hyb_negative_rows, some [1, 1, 1], some 0,
          some [5, 5, 5]⟩).outcome
        = returned rocsparse_status_invalid_size ∧
    ((rocsparse_hybmv_template ⟨runtime_ok, some handle_host, rocsparse_operation_none, none,
          some descr_general, some hyb_negative_rows, some [1, 1, 1], some 0,
          some [5, 5, 5]⟩).outcome
        = returned rocsparse_status_invalid_size ↔
      (hyb_negative_rows.m < 0 ∨ hyb_negative_rows.n < 0 ∨
        add32 hyb_negative_rows.ell_nnz hyb_negative_rows.coo_nnz < 0 ∨
        (0 < hyb_negative_rows.ell_nnz ∧ hyb_negative_rows.ell_width < 0))) :=
  ⟨by decide, by decide,
    hybmv_invalid_size_iff runtime_ok handle_host rocsparse_operation_none none (some 0)
      descr_general hyb_negative_rows (some [1, 1, 1]) (some [5, 5, 5])
      (by decide) (by decide) (by decide)⟩

/-- C11 (as stated) fails: a call that passes validation with non-negative
sizes, declares no nonzero (`ell_nnz + coo_nnz = 0`, `m = n = 3`) and requests
the transpose operation returns success from the quick return, not
not-implemented. -/
theorem hybmv_transpose_of_empty_matrix_succeeds :
    (legal_index_base descr_general.base ∧
      descr_general.type = rocsparse_matrix_type_general ∧
      sizes_valid hyb_no_entries ∧ arrays_present hyb_no_entries) ∧
    rocsparse_operation_transpose ≠ rocsparse_operation_none ∧
    rocsparse_hybmv_template ⟨runtime_ok, some handle_host, rocsparse_operation_transpose,
        some 1, some descr_general, some hyb_no_entries, some [1, 1, 1], some 0,
        some [5, 5, 5]⟩
      = ⟨returned rocsparse_status_success, []⟩ ∧
    returned rocsparse_status_success ≠ returned rocsparse_status_not_implemented := by
  exact ⟨by decide, by decide, by decide, by decide⟩

/-- C11 (amended). For every call whose arguments pass validation (handle,
descriptor, matrix, required sub-arrays and operand pointers present, legal
index base, general type, no invalid size), requesting an operation other than
no-transpose issues no device work and returns not-implemented when the sizes
are not degenerate (`m`, `n` and `ell_nnz + coo_nnz` all nonzero), and success
from the quick return when they are. -/
theorem hybmv_other_operation_not_implemented (rt : HipRuntime) (h : Handle)
    (trans : rocsparse_operation) (a b : ℚ) (d : MatDescr) (A : HybMat) (x y : List ℚ)
    (hb : legal_index_base d.base) (ht : d.type = rocsparse_matrix_type_general)
    (hs : sizes_valid A) (hp : arrays_present A)
    (htr : trans ≠ rocsparse_operation_none) :
    rocsparse_hybmv_template ⟨rt, some h, trans, some a, some d, some A, some x, some b, some y⟩
      = if degenerate A then ⟨returned rocsparse_status_success, []⟩
        else ⟨returned rocsparse_status_not_implemented, []⟩ := by
  rw [template_of_valid rt h trans a b d A x y hb ht hs hp]
  by_cases hd : degenerate A
  · rw [if_pos hd, if_pos hd]
  · rw [if_neg hd, if_neg hd]
    unfold hybmv_dispatch
    rw [if_neg htr]

/-- Witness of C11 (amended): the transpose of the example matrix of section 8
is not implemented and queues nothing. -/
theorem hybmv_other_operation_not_implemented_witness :
    (legal_index_base descr_general.base ∧
      descr_general.type = rocsparse_matrix_type_general ∧
      sizes_valid hyb_example ∧ arrays_present hyb_example ∧ ¬ degenerate hyb_example ∧
      rocsparse_operation_transpose ≠ rocsparse_operation_none) ∧
    rocsparse_hybmv_template ⟨runtime_ok, some handle_host, rocsparse_operation_transpose,
        some 1, some descr_general, some hyb_example, some [1, 1, 1], some 0, some [5, 5, 5]⟩
      = if degenerate hyb_example then ⟨returned rocsparse_status_success, []⟩
        else ⟨returned rocsparse_status_not_implemented, []⟩ :=
  ⟨by decide,
    hybmv_other_operation_not_implemented runtime_ok handle_host rocsparse_operation_transpose
      1 0 descr_general hyb_example [1, 1, 1] [5, 5, 5]
      (by decide) (by decide) (by decide) (by decide) (by decide)⟩

/-- C12 (as stated) fails: with warp size 1, `coo_nnz = 2^31 - 1` and a device
of 64 processors with 1024 threads, `coo_nnz / ws + 1` is `2^31`, which the
32-bit addition turns into `-2^31`; the routine computes `nwarps = 65536` and
`nloops = -32767`, so `nloops * nwarps * ws` is negative and below `coo_nnz`. -/
theorem coomvn_partition_overflow :
    ((1 : Int) ≤ rocsparse_int_max ∧ isInt32 rocsparse_int_max ∧
      1 ≤ handle_host_warp1.warp_size ∧ handle_host_warp1.warp_size ≤ 128 ∧
      1 ≤ handle_host_warp1.properties.multiProcessorCount
        * handle_host_warp1.properties.maxThreadsPerBlock) ∧
    coomvn_grid handle_host_warp1 rocsparse_int_max
      = some ⟨512, 16777216, 512, 65536, -32767⟩ ∧
    ¬ (rocsparse_int_max ≤ (-32767 : Int) * 65536 * handle_host_warp1.warp_size) := by
  exact ⟨by decide, by decide, by decide⟩

/-- C12 (amended). For every 32-bit `coo_nnz ≥ 1`, every warp size `ws` from 2
to 128 (and `ws = 1` when `coo_nnz ≤ 2^31 - 128`) and every device whose
product `multiProcessorCount * maxThreadsPerBlock`, computed in 32 bits, is at
least 1, the routine computes a grid with `nwarps = nblocks * (128 / ws)` and
`nloops = (coo_nnz / ws + 1) / nwarps + 1` such that
`nloops * nwarps * ws ≥ coo_nnz` and
`nloops * nwarps * ws ≤ coo_nnz + (nwarps + 1) * ws`. -/
theorem coomvn_partition_covers (h : Handle) (c : Int)
    (hc1 : 1 ≤ c) (hc2 : isInt32 c)
    (hw1 : 1 ≤ h.warp_size) (hw2 : h.warp_size ≤ 128)
    (hp : 1 ≤ mul32 h.properties.multiProcessorCount h.properties.maxThreadsPerBlock)
    (hov : 2 ≤ h.warp_size ∨ c + 128 ≤ 2 ^ 31) :
    ∃ g, coomvn_grid h c = some g ∧
      g.nwarps = g.nblocks * (128 / h.warp_size) ∧
      g.nloops = (c / h.warp_size + 1) / g.nwarps + 1 ∧
      c ≤ g.nloops * g.nwarps * h.warp_size ∧
      g.nloops * g.nwarps * h.warp_size ≤ c + (g.nwarps + 1) * h.warp_size := by
  obtain ⟨hg, _, _, hnw1, hl0⟩ := coomvn_grid_exact h c hc1 hc2.2 hw1 hw2 hp hov
  refine ⟨_, hg, rfl, rfl, ?_, ?_⟩
  all_goals dsimp only
  all_goals
    generalize coomvn_nblocks h c * (128 / h.warp_size) = nw at hnw1 hl0 ⊢
    have hws0 : (0 : Int) < h.warp_size := by omega
    have hq2 : c / h.warp_size * h.warp_size ≤ c := Int.ediv_mul_le _ (by omega)
    have hq3 : c < (c / h.warp_size + 1) * h.warp_size :=
      Int.lt_ediv_add_one_mul_self _ hws0
    have hl2 : (c / h.warp_size + 1) / nw * nw ≤ c / h.warp_size + 1 :=
      Int.ediv_mul_le _ (by omega)
    have hl3 : c / h.warp_size + 1 < ((c / h.warp_size + 1) / nw + 1) * nw :=
      Int.lt_ediv_add_one_mul_self _ (by omega)
    generalize (c / h.warp_size + 1) / nw = l at hl0 hl2 hl3 ⊢
    generalize c / h.warp_size = q at hq2 hq3 hl2 hl3 ⊢
  · have h1 : (q + 2) * h.warp_size ≤ (l + 1) * nw * h.warp_size :=
      Int.mul_le_mul_of_nonneg_right (by omega) (by omega)
    nlinarith
  · have h1 : (l + 1) * nw * h.warp_size ≤ (q + 1 + nw) * h.warp_size :=
      Int.mul_le_mul_of_nonneg_right (by nlinarith) (by omega)
    nlinarith

/-- Witness of C12 (amended): a million entries on warps of 64 lanes, 64
processors of 1024 threads: 1024 warps of 16 passes cover 1048576 entries. -/
theorem coomvn_partition_covers_witness :
    ((1 : Int) ≤ 1000000 ∧ isInt32 1000000 ∧
      1 ≤ handle_host.warp_size ∧ handle_host.warp_size ≤ 128 ∧
      1 ≤ mul32 handle_host.properties.multiProcessorCount
        handle_host.properties.maxThreadsPerBlock ∧
      2 ≤ handle_host.warp_size) ∧
    coomvn_grid handle_host 1000000 = some ⟨512, 7813, 512, 1024, 16⟩ ∧
    ∃ g, coomvn_grid handle_host 1000000 = some g ∧
      g.nwarps = g.nblocks * (128 / handle_host.warp_size) ∧
      g.nloops = (1000000 / handle_host.warp_size + 1) / g.nwarps + 1 ∧
      1000000 ≤ g.nloops * g.nwarps * handle_host.warp_size ∧
      g.nloops * g.nwarps * handle_host.warp_size
        ≤ 1000000 + (g.nwarps + 1) * handle_host.warp_size :=
  ⟨by decide, by decide,
    coomvn_partition_covers handle_host 1000000 (by decide) (by decide) (by decide)
      (by decide) (by decide) (Or.inl (by decide))⟩

/-- C13. The failing input of the scratch-buffer size: a valid host-mode call
with `coo_nnz = 1` on a handle whose warp size is 32. The two buffers are
allocated with `nwarps = nblocks * (128 / 32) = 4` elements and the merger is
told to read 4 partials, while the warp-reduce kernel, compiled for warps of
64, runs `nblocks * (128 / 64) = 2` warps. -/
theorem hybmv_scratch_slots_differ_from_warps :
    rocsparse_hybmv_template (call_on runtime_ok handle_host_warp32 hyb_both (some 1) (some 0))
      = ⟨returned rocsparse_status_success,
          [launch_ellmvn_host 1 512 3 3 1 1 0 rocsparse_index_base_zero,
           hipMalloc_row_block_red 4 hipSuccess,
           hipMalloc_val_block_red 4 hipSuccess,
           launch_coomvn_warp_host 128 64 1 128 1 1 1 rocsparse_index_base_zero,
           launch_coomvn_block_reduce 128 1 128 4,
           hipFree_row_block_red hipSuccess,
           hipFree_val_block_red hipSuccess]⟩ ∧
    (hipMalloc_row_block_red 4 hipSuccess).scratch_slots = some 4 ∧
    (launch_coomvn_block_reduce 128 1 128 4).scratch_slots = some 4 ∧
    (launch_coomvn_warp_host 128 64 1 128 1 1 1 rocsparse_index_base_zero).warps_launched
      = some 2 := by
  exact ⟨by decide, by decide, by decide, by decide⟩

/-- C14. The ELL grid covers all rows with no surplus block: for every row
count `m` from 1 up to the largest `rocsparse_int`, the number of blocks is
`(m - 1) / 512 + 1`, the ceiling of `m / 512`, launched with 512 threads each,
so `blocks * 512 ≥ m` and `(blocks - 1) * 512 < m`. -/
theorem ellmvn_blocks_cover_rows (m : Int) (h1 : 1 ≤ m) (h2 : isInt32 m) :
    ellmvn_blocks m = (m - 1) / 512 + 1 ∧
    ellmvn_blocks m = (m + 511) / 512 ∧
    ELLMVN_DIM = 512 ∧
    m ≤ ellmvn_blocks m * ELLMVN_DIM ∧
    (ellmvn_blocks m - 1) * ELLMVN_DIM < m := by
  obtain ⟨_, h3⟩ := h2
  have e1 : sub32 m 1 = m - 1 := by unfold sub32 wrap32; omega
  have e2 : Int.tdiv (m - 1) 512 = (m - 1) / 512 :=
    Int.tdiv_eq_ediv (by omega) (by decide)
  have e3 : ellmvn_blocks m = (m - 1) / 512 + 1 := by
    unfold ellmvn_blocks ELLMVN_DIM add32
    rw [e1, e2]
    unfold wrap32
    omega
  refine ⟨e3, ?_, rfl, ?_, ?_⟩
  · rw [e3]; omega
  · rw [e3]; unfold ELLMVN_DIM; omega
  · rw [e3]; unfold ELLMVN_DIM; omega

/-- Witness of C14: 513 rows need two blocks of 512 threads. -/
theorem ellmvn_blocks_cover_rows_witness :
    ((1 : Int) ≤ 513 ∧ isInt32 513) ∧ ellmvn_blocks 513 = 2 ∧
    (513 : Int) ≤ ellmvn_blocks 513 * ELLMVN_DIM ∧
    (ellmvn_blocks 513 - 1) * ELLMVN_DIM < 513 :=
  ⟨by decide, by decide,
    (ellmvn_blocks_cover_rows 513 (by decide) (by decide)).2.2.2.1,
    (ellmvn_blocks_cover_rows 513 (by decide) (by decide)).2.2.2.2⟩

/-- C15 (as stated) fails: a valid host-mode call with `ell_nnz = 3`,
`coo_nnz = 1` and every allocation and free succeeding, on a handle whose warp
size is 256: `COOMVN_DIM / warp_size` is 0, so `nwarps` is 0 and the routine
divides by it after the ELL launch was queued; no status is returned. -/
theorem hybmv_wide_warp_divides_by_zero :
    rocsparse_hybmv_template (call_on runtime_ok handle_host_warp256 hyb_both (some 1) (some 0))
      = ⟨fault division_by_zero,
          [launch_ellmvn_host 1 512 3 3 1 1 0 rocsparse_index_base_zero]⟩ := by
  decide

/-- C15 (amended). For every valid, non-degenerate no-transpose call in host
pointer mode that is not the `alpha = 0`, `beta = 1` case, whose allocations
and frees succeed and whose COO grid computation, when `coo_nnz > 0`, meets no
zero divisor and yields the grid `g`: the call returns success and its trace is
exactly the ELL launch if and only if `ell_nnz > 0`, followed, if and only if
`coo_nnz > 0`, by the allocation of `row_block_red`, the allocation of
`val_block_red`, the warp-reduce launch, the single-block block-reduce launch,
the free of `row_block_red` and the free of `val_block_red`, in this order. -/
theorem hybmv_host_mode_trace_order (rt : HipRuntime) (h : Handle) (a b : ℚ) (d : MatDescr)
    (A : HybMat) (x y : List ℚ) (g : CooGrid)
    (hb : legal_index_base d.base) (ht : d.type = rocsparse_matrix_type_general)
    (hs : sizes_valid A) (hp : arrays_present A) (hnd : ¬ degenerate A)
    (hm : h.pointer_mode = rocsparse_pointer_mode_host)
    (hab : ¬ (a = 0 ∧ b = 1))
    (hr : rt = runtime_ok)
    (hg : 0 < A.coo_nnz → coomvn_grid h A.coo_nnz = some g) :
    rocsparse_hybmv_template
        ⟨rt, some h, rocsparse_operation_none, some a, some d, some A, some x, some b, some y⟩
      = ⟨returned rocsparse_status_success, host_mode_trace rt d A a b g⟩ := by
  subst hr
  rw [template_of_valid _ h _ a b d A x y hb ht hs hp, if_neg hnd]
  unfold hybmv_dispatch host_mode_trace
  have hm2 : ¬ h.pointer_mode = rocsparse_pointer_mode_device := by
    rw [hm]; exact fun e => by cases e
  rw [if_pos rfl, if_neg hm2]
  dsimp only
  rw [if_neg hab]
  by_cases hc : 0 < A.coo_nnz
  · rw [if_pos hc, if_pos hc]
    unfold hybmv_coo_part
    rw [hg hc]
    by_cases he : 0 < A.ell_nnz
    · rw [if_pos he]; rfl
    · rw [if_neg he]; rfl
  · rw [if_neg hc, if_neg hc, List.append_nil]

/-- Witness of C15 (amended): the matrix with both parts on a handle of warp
size 64 queues the seven actions in order. -/
theorem hybmv_host_mode_trace_order_witness :
    (legal_index_base descr_general.base ∧
      descr_general.type = rocsparse_matrix_type_general ∧
      sizes_valid hyb_both ∧ arrays_present hyb_both ∧ ¬ degenerate hyb_both ∧
      handle_host.pointer_mode = rocsparse_pointer_mode_host ∧
      coomvn_grid handle_host hyb_both.coo_nnz = some ⟨512, 1, 1, 2, 1⟩) ∧
    rocsparse_hybmv_template
        ⟨runtime_ok, some handle_host, rocsparse_operation_none, some 1, some descr_general,
          some hyb_both, some [1, 1, 1], some 0, some [5, 5, 5]⟩
      = ⟨returned rocsparse_status_success,
          host_mode_trace runtime_ok descr_general hyb_both 1 0 ⟨512, 1, 1, 2, 1⟩⟩ ∧
    host_mode_trace runtime_ok descr_general hyb_both 1 0 ⟨512, 1, 1, 2, 1⟩
      = [launch_ellmvn_host 1 512 3 3 1 1 0 rocsparse_index_base_zero,
         hipMalloc_row_block_red 2 hipSuccess,
         hipMalloc_val_block_red 2 hipSuccess,
         launch_coomvn_warp_host 128 64 1 128 1 1 1 rocsparse_index_base_zero,
         launch_coomvn_block_reduce 128 1 128 2,
         hipFree_row_block_red hipSuccess,
         hipFree_val_block_red hipSuccess] :=
  ⟨by decide,
    hybmv_host_mode_trace_order runtime_ok handle_host 1 0 descr_general hyb_both
      [1, 1, 1] [5, 5, 5] ⟨512, 1, 1, 2, 1⟩
      (by decide) (by decide) (by decide) (by decide) (by decide) (by decide)
      (by norm_num) rfl (fun _ => by decide),
    by decide⟩

/-- C16 (as stated) fails: for a device with `65536` processors of `65536`
threads the integer product is `2^32 ≥ 1` and, with `coo_nnz = 1000`, the
minimum of the two ceilings is `8`; the routine multiplies in 32 bits, gets the
product 0 and from it `maxblocks = 1`, so it uses one block. -/
theorem coomvn_nblocks_product_overflow :
    (isInt32 65536 ∧ (1 : Int) ≤ 65536 * 65536 ∧ (1 : Int) ≤ 1000) ∧
    min ((65536 * 65536 + 127) / 128) ((1000 + 127) / 128) = (8 : Int) ∧
    coomvn_nblocks ⟨rocsparse_pointer_mode_host, 64, ⟨65536, 65536⟩, false⟩ 1000 = 1 ∧
    coomvn_grid ⟨rocsparse_pointer_mode_host, 64, ⟨65536, 65536⟩, false⟩ 1000
      = some ⟨1, 8, 1, 2, 9⟩ := by
  exact ⟨by decide, by decide, by decide, by decide⟩

/-- C16 (amended). For every 32-bit `coo_nnz ≥ 1` and every device whose
product `multiProcessorCount * maxThreadsPerBlock`, computed in 32-bit signed
arithmetic, is at least 1, the number of COO blocks is the minimum of the
ceiling of that product over 128 and the ceiling of `coo_nnz / 128`; hence it
is at least 1, at most the occupancy bound and at most the number of 128-entry
blocks needed for `coo_nnz`. It is the block count of every grid the routine
computes. -/
theorem coomvn_nblocks_eq_min (h : Handle) (c : Int)
    (hc1 : 1 ≤ c) (hc2 : isInt32 c)
    (hp : 1 ≤ mul32 h.properties.multiProcessorCount h.properties.maxThreadsPerBlock) :
    coomvn_nblocks h c
      = min ((mul32 h.properties.multiProcessorCount h.properties.maxThreadsPerBlock + 127) / 128)
          ((c + 127) / 128) ∧
    1 ≤ coomvn_nblocks h c ∧
    coomvn_nblocks h c
      ≤ (mul32 h.properties.multiProcessorCount h.properties.maxThreadsPerBlock + 127) / 128 ∧
    coomvn_nblocks h c ≤ (c + 127) / 128 ∧
    ∀ g, coomvn_grid h c = some g → g.nblocks = coomvn_nblocks h c := by
  have key := coomvn_nblocks_min h c hc1 hc2.2 hp
  refine ⟨key, ?_, ?_, ?_, fun g hg => coomvn_grid_nblocks h c g hg⟩
  · rw [key]; omega
  · rw [key]; exact min_le_left _ _
  · rw [key]; exact min_le_right _ _

/-- Witness of C16 (amended): 64 processors of 1024 threads allow 512 blocks,
a million entries need 7813, so 512 blocks are used. -/
theorem coomvn_nblocks_eq_min_witness :
    ((1 : Int) ≤ 1000000 ∧ isInt32 1000000 ∧
      1 ≤ mul32 handle_host.properties.multiProcessorCount
        handle_host.properties.maxThreadsPerBlock) ∧
    coomvn_nblocks handle_host 1000000 = 512 ∧
    coomvn_nblocks handle_host 1000000
      = min ((mul32 handle_host.properties.multiProcessorCount
          handle_host.properties.maxThreadsPerBlock + 127) / 128) ((1000000 + 127) / 128) :=
  ⟨by decide, by decide,
    (coomvn_nblocks_eq_min handle_host 1000000 (by decide) (by decide) (by decide)).1⟩

/-- C17. The failing inputs of the scratch-buffer lifetime, both valid
host-mode calls with `ell_nnz = 3` and `coo_nnz = 1`. When the second
allocation fails the routine returns at once and `row_block_red`, allocated
just before, is never passed to `hipFree`; when the first `hipFree` reports an
error the routine returns at once and `val_block_red` is never passed to
`hipFree`. -/
theorem hybmv_early_return_leaks_scratch :
    rocsparse_hybmv_template
        (call_on runtime_second_alloc_fails handle_host hyb_both (some 1) (some 0))
      = ⟨returned (hip_failure (hipFailure 2)),
          [launch_ellmvn_host 1 512 3 3 1 1 0 rocsparse_index_base_zero,
           hipMalloc_row_block_red 2 hipSuccess,
           hipMalloc_val_block_red 2 (hipFailure 2)]⟩ ∧
    ¬ scratch_released (rocsparse_hybmv_template
        (call_on runtime_second_alloc_fails handle_host hyb_both (some 1) (some 0))).trace ∧
    rocsparse_hybmv_template
        (call_on runtime_first_free_fails handle_host hyb_both (some 1) (some 0))
      = ⟨returned (hip_failure (hipFailure 1)),
          [launch_ellmvn_host 1 512 3 3 1 1 0 rocsparse_index_base_zero,
           hipMalloc_row_block_red 2 hipSuccess,
           hipMalloc_val_block_red 2 hipSuccess,
           launch_coomvn_warp_host 128 64 1 128 1 1 1 rocsparse_index_base_zero,
           launch_coomvn_block_reduce 128 1 128 2,
           hipFree_row_block_red (hipFailure 1)]⟩ ∧
    ¬ scratch_released (rocsparse_hybmv_template
        (call_on runtime_first_free_fails handle_host hyb_both (some 1) (some 0))).trace := by
  exact ⟨by decide, by decide, by decide, by decide⟩

/-- C18. The failing input of the pointer discipline: a valid call in host
pointer mode with trace logging on whose `beta` is absent (and one whose
`alpha` and `beta` are both absent). The arguments of the trace log are
`*alpha` and `*beta`, and the logger reads them before either pointer is
compared with `nullptr`, so the call ends in a null dereference. With trace
logging off nothing is read and the call returns invalid-pointer, as it does
in device pointer mode, where the scalars are not read by the host. -/
theorem hybmv_reads_scalars_before_null_check :
    log_trace_reads handle_host_logging (some 1) none = false ∧
    rocsparse_hybmv_template (call_on runtime_ok handle_host_logging hyb_example (some 1) none)
      = ⟨fault null_dereference, []⟩ ∧
    rocsparse_hybmv_template (call_on runtime_ok handle_host_logging hyb_example none none)
      = ⟨fault null_dereference, []⟩ ∧
    rocsparse_hybmv_template (call_on runtime_ok handle_host hyb_example (some 1) none)
      = ⟨returned rocsparse_status_invalid_pointer, []⟩ ∧
    rocsparse_hybmv_template (call_on runtime_ok handle_device hyb_example (some 1) none)
      = ⟨returned rocsparse_status_invalid_pointer, []⟩ := by
  exact ⟨by decide, by decide, by decide, by decide, by decide⟩

/-- C19 (as stated) fails: with warp size 1, `coo_nnz = 2^31 - 127` and a
device whose product is `2^31 - 1`, `nblocks` is `2^24` and
`nblocks * (128 / ws)` is `2^31`, which the 32-bit product turns into `-2^31`:
the computed `nwarps` is negative, not at least 1. With warp size 1,
`coo_nnz = 2^31 - 1` and 64 processors of 1024 threads the computed `nloops` is
`-32767`, not at least 1. -/
theorem coomvn_grid_nwarps_overflow :
    ((1 : Int) ≤ rocsparse_int_max - 126 ∧ isInt32 (rocsparse_int_max - 126) ∧
      (1 : Int) ≤ 1 ∧ (1 : Int) ≤ 128 ∧ (1 : Int) ≤ rocsparse_int_max * 1 ∧
      isInt32 (rocsparse_int_max * 1)) ∧
    coomvn_grid ⟨rocsparse_pointer_mode_host, 1, ⟨1, rocsparse_int_max⟩, false⟩
        (rocsparse_int_max - 126)
      = some ⟨16777216, 16777216, 16777216, -2147483648, 1⟩ ∧
    ¬ ((1 : Int) ≤ -2147483648) ∧
    ((coomvn_grid handle_host_warp1 rocsparse_int_max).map CooGrid.nloops = some (-32767) ∧
      ¬ ((1 : Int) ≤ -32767)) := by
  exact ⟨by decide, by decide, by decide, by decide⟩

/-- C19 (amended). For every 32-bit `coo_nnz ≥ 1`, every warp size `ws` from 2
to 128 (and `ws = 1` when `coo_nnz ≤ 2^31 - 128`) and every device whose
product `multiProcessorCount * maxThreadsPerBlock`, computed in 32 bits, is at
least 1, the grid computation meets no zero divisor and yields `nblocks ≥ 1`,
`nwarps ≥ 1` and `nloops ≥ 1`, so the scratch allocation size is positive. For
every warp size above 128, `COOMVN_DIM / ws` is 0, the computed `nwarps` is 0
and the division by `nwarps` has a zero divisor. -/
theorem coomvn_grid_positive (h : Handle) (c : Int) :
    (1 ≤ c → isInt32 c → 1 ≤ h.warp_size → h.warp_size ≤ 128 →
      1 ≤ mul32 h.properties.multiProcessorCount h.properties.maxThreadsPerBlock →
      (2 ≤ h.warp_size ∨ c + 128 ≤ 2 ^ 31) →
      ∃ g, coomvn_grid h c = some g ∧ 1 ≤ g.nblocks ∧ 1 ≤ g.nwarps ∧ 1 ≤ g.nloops) ∧
    (128 < h.warp_size →
      mul32 (coomvn_nblocks h c) (Int.tdiv COOMVN_DIM h.warp_size) = 0 ∧
      coomvn_grid h c = none) := by
  constructor
  · intro hc1 hc2 hw1 hw2 hp hov
    obtain ⟨hg, hnb1, _, hnw1, hl0⟩ := coomvn_grid_exact h c hc1 hc2.2 hw1 hw2 hp hov
    exact ⟨_, hg, hnb1, hnw1, by dsimp only; omega⟩
  · intro hw
    have hwsne : h.warp_size ≠ 0 := by omega
    have e0 : Int.tdiv COOMVN_DIM h.warp_size = 0 := by
      unfold COOMVN_DIM
      rw [Int.tdiv_eq_ediv (by decide) (by omega)]
      exact Int.ediv_eq_zero_of_lt (by decide) hw
    have m0 : mul32 (coomvn_nblocks h c) 0 = 0 := by
      unfold mul32; rw [Int.mul_zero]; decide
    have d1 : div32 COOMVN_DIM h.warp_size = some 0 := by
      unfold div32
      rw [if_neg hwsne, e0]
      decide
    refine ⟨by rw [e0, m0], ?_⟩
    rw [coomvn_grid_eq, d1]
    dsimp only
    rw [m0]
    cases h2 : div32 c h.warp_size with
    | none => rfl
    | some q =>
      dsimp only
      unfold div32
      rw [if_pos rfl]

/-- Witness of C19 (amended): a million entries on warps of 64 lanes give a
positive grid, and warps of 256 lanes give a zero divisor. -/
theorem coomvn_grid_positive_witness :
    ((1 : Int) ≤ 1000000 ∧ isInt32 1000000 ∧
      1 ≤ handle_host.warp_size ∧ handle_host.warp_size ≤ 128 ∧
      1 ≤ mul32 handle_host.properties.multiProcessorCount
        handle_host.properties.maxThreadsPerBlock ∧
      2 ≤ handle_host.warp_size ∧ 128 < handle_host_warp256.warp_size) ∧
    (∃ g, coomvn_grid handle_host 1000000 = some g ∧
      1 ≤ g.nblocks ∧ 1 ≤ g.nwarps ∧ 1 ≤ g.nloops) ∧
    (mul32 (coomvn_nblocks handle_host_warp256 5)
        (Int.tdiv COOMVN_DIM handle_host_warp256.warp_size) = 0 ∧
      coomvn_grid handle_host_warp256 5 = none) :=
  ⟨by decide,
    (coomvn_grid_positive handle_host 1000000).1 (by decide) (by decide) (by decide)
      (by decide) (by decide) (Or.inl (by decide)),
    (coomvn_grid_positive handle_host_warp256 5).2 (by decide)⟩

end rocsparse
